import Mathlib

/-!
Verification of jsdw/polkadot-historic-decoding-example.

Shallow embedding of the core components described in spec.md:
binary chopper (src/binary_chopper.rs), concurrent runner ordering,
retry and round-robin logic (src/utils/runner.rs), extrinsic decoding
(src/decoding/extrinsic_decoder.rs), extrinsic type info
(src/decoding/extrinsic_type_info.rs), storage type info
(src/decoding/storage_type_info.rs) and storage decoding
(src/decoding/storage_decoder.rs).

External crate calls (scale_value decoding, hashing, type-name parsing)
are abstracted as function parameters of the embedded definitions; the
control flow and data handling of the repository code itself is
translated faithfully.
-/

/-! ## BinaryChopper (src/binary_chopper.rs)

The source is generic over a number type `N : BinaryChopNumber` and a
state type `T : PartialEq + Clone`. The claims instantiate it at
`usize`/`u64` positions and integer states, so we embed it at
`N = Nat`, `T = Nat`. -/

/-- Embedding of `BinaryChopper<N, T>` (src/binary_chopper.rs lines 3-7):
a pair of (position, state) bounds. -/
structure BinaryChopper where
  min : Nat × Nat
  max : Nat × Nat
deriving DecidableEq

/-- Embedding of `Next<N, T>` (src/binary_chopper.rs lines 9-16). -/
inductive Next where
  | NeedsState (n : Nat)
  | Finished (min : Nat × Nat) (max : Nat × Nat)
deriving DecidableEq

/-- Embedding of `BinaryChopNumber::increment` for the integer impls
(src/binary_chopper.rs lines 75-90): `self + 1`. -/
def increment (n : Nat) : Nat := n + 1

/-- Embedding of `BinaryChopNumber::mid` for the integer impls
(src/binary_chopper.rs lines 75-90): `(self + other) / 2`, applied to the
two bound positions as in `BinaryChopper::mid` (lines 64-66). -/
def BinaryChopper.mid (c : BinaryChopper) : Nat :=
  (c.min.1 + c.max.1) / 2

/-- Embedding of `BinaryChopper::next_value` (src/binary_chopper.rs
lines 42-50). -/
def BinaryChopper.next_value (c : BinaryChopper) : Next :=
  if c.min.1 = c.max.1 ∨ increment c.min.1 = c.max.1 then
    Next.Finished c.min c.max
  else
    Next.NeedsState c.mid

/-- Embedding of `BinaryChopper::set_state_for_next_value`
(src/binary_chopper.rs lines 55-62). -/
def BinaryChopper.set_state_for_next_value (c : BinaryChopper) (state : Nat) : BinaryChopper :=
  if state = c.min.2 then
    { min := (c.mid, state), max := c.max }
  else
    { min := c.min, max := (c.mid, state) }

/-- The probe loop driving one chopper to completion, answering every
`NeedsState(n)` with the state at index `n` of `states` (the inner
`while let` loop of the test at src/binary_chopper.rs lines 109-111).
Fuel-based: enough fuel makes it reach `Finished`. -/
def chopperLoop (states : List Nat) : Nat → BinaryChopper → BinaryChopper
  | 0, c => c
  | fuel + 1, c =>
    match c.next_value with
    | Next.NeedsState n => chopperLoop states fuel (c.set_state_for_next_value (states.getD n 0))
    | Next.Finished _ _ => c

/-- The outer loop of the test (src/binary_chopper.rs lines 103-118):
repeatedly chop `[start, endIdx]` and restart from each discovered upper
boundary, collecting the finished bound pairs. -/
def chopAllLoop (states : List Nat) (endIdx : Nat) : Nat → Nat → List ((Nat × Nat) × (Nat × Nat))
  | 0, _ => []
  | fuel + 1, start =>
    if start = endIdx then []
    else
      let c := chopperLoop states (endIdx + 2)
        (BinaryChopper.mk (start, states.getD start 0) (endIdx, states.getD endIdx 0))
      match c.next_value with
      | Next.Finished mn mx => (mn, mx) :: chopAllLoop states endIdx fuel mx.1
      | Next.NeedsState _ => []

/-- Chop the whole index range `[0, states.length - 1]` of a state
sequence, as the test does for `[0,0,0,1,1,1,1,2,3,4,4,5]`. -/
def chopAll (states : List Nat) : List ((Nat × Nat) × (Nat × Nat)) :=
  chopAllLoop states (states.length - 1) states.length 0

/-- C2: starting BinaryChopper on the index range [0, 11] of the state
sequence [0,0,0,1,1,1,1,2,3,4,4,5], answering every NeedsState(n) probe
with the state at index n and restarting from each discovered upper
boundary, yields exactly the finished boundary pairs
((2,0),(3,1)), ((6,1),(7,2)), ((7,2),(8,3)), ((8,3),(9,4)), ((10,4),(11,5))
in that order; and each step follows the transition rule: finished when
the two bounds are equal or adjacent, otherwise probe the midpoint and
move the low bound to (mid, state) when the supplied state equals low's
state, else move the high bound to (mid, state). -/
theorem C2_binary_chopper_run :
    chopAll [0,0,0,1,1,1,1,2,3,4,4,5] =
      [((2,0),(3,1)), ((6,1),(7,2)), ((7,2),(8,3)), ((8,3),(9,4)), ((10,4),(11,5))]
    ∧ (∀ c : BinaryChopper,
        c.next_value = Next.Finished c.min c.max ↔ (c.min.1 = c.max.1 ∨ increment c.min.1 = c.max.1))
    ∧ (∀ c : BinaryChopper, ¬(c.min.1 = c.max.1 ∨ increment c.min.1 = c.max.1) →
        c.next_value = Next.NeedsState c.mid)
    ∧ (∀ (c : BinaryChopper) (s : Nat), s = c.min.2 →
        c.set_state_for_next_value s = { min := (c.mid, s), max := c.max })
    ∧ (∀ (c : BinaryChopper) (s : Nat), s ≠ c.min.2 →
        c.set_state_for_next_value s = { min := c.min, max := (c.mid, s) }) := by
  refine ⟨by decide, ?_, ?_, ?_, ?_⟩
  · intro c
    constructor
    · intro h
      by_contra hcond
      simp [BinaryChopper.next_value, hcond] at h
    · intro hcond
      simp [BinaryChopper.next_value, hcond]
  · intro c hcond
    simp [BinaryChopper.next_value, hcond]
  · intro c s hs
    simp [BinaryChopper.set_state_for_next_value, hs]
  · intro c s hs
    simp [BinaryChopper.set_state_for_next_value, hs]

/-- Witness for C2: instantiates the transition-rule conjuncts of
`C2_binary_chopper_run` on the concrete chopper with bounds (0,0) and
(11,5), whose midpoint probe is 5. -/
theorem C2_binary_chopper_run_witness :
    (BinaryChopper.mk (0, 0) (11, 5)).next_value = Next.NeedsState 5
    ∧ (BinaryChopper.mk (0, 0) (11, 5)).set_state_for_next_value 0 =
        { min := (5, 0), max := (11, 5) } := by
  constructor
  · exact C2_binary_chopper_run.2.2.1 (BinaryChopper.mk (0, 0) (11, 5)) (by decide)
  · exact C2_binary_chopper_run.2.2.2.1 (BinaryChopper.mk (0, 0) (11, 5)) 0 (by decide)

/-! ## Runner (src/utils/runner.rs)

`Runner::run` spawns `num_tasks` workers which claim task numbers from a
shared atomic counter, retry failing tasks in place up to `MAX_RETRIES`,
re-run `init` when the ceiling is exceeded, and send `(task_num, output)`
pairs to a single consumer which emits them in task-number order,
buffering out-of-order arrivals in a HashMap. We embed the per-worker
retry loop and the single-consumer reorder loop as pure functions. -/

/-- Embedding of `MAX_RETRIES` (src/utils/runner.rs line 35). -/
def MAX_RETRIES : Nat := 5

/-- One attempt outcome of the `task_fn` call, mirroring
`anyhow::Result<Option<Output>>` (src/utils/runner.rs line 73):
`ok` is `Ok(Some(output))`, `done` is `Ok(None)`, `err` is `Err(_)`. -/
inductive TaskResult (O : Type) where
  | ok (output : O)
  | done
  | err

/-- Embedding of one worker's loop (src/utils/runner.rs lines 51-102),
driven by a schedule of attempt outcomes. State: current task number,
consecutive-failure counter `task_retries`, number of `init` calls made
so far, and the outputs sent (accumulated reversed). A successful task
resets `task_retries`, records the output and claims the next task
number; `Ok(None)` exits; an error increments `task_retries` and, once
it exceeds `maxRetries`, re-runs `init` (counted) and restarts the inner
loop against the fresh workload with the same task number. `init` itself
is taken to always succeed, as in the claims considered here. -/
def workerSteps {O : Type} (maxRetries : Nat) :
    List (TaskResult O) → Nat → Nat → Nat → List (Nat × O) → Nat × List (Nat × O)
  | [], _, _, inits, outs => (inits, outs.reverse)
  | TaskResult.ok o :: rest, taskNum, _, inits, outs =>
      workerSteps maxRetries rest (taskNum + 1) 0 inits ((taskNum, o) :: outs)
  | TaskResult.done :: _, _, _, inits, outs => (inits, outs.reverse)
  | TaskResult.err :: rest, taskNum, retries, inits, outs =>
      if retries + 1 > maxRetries then
        workerSteps maxRetries rest taskNum 0 (inits + 1) outs
      else
        workerSteps maxRetries rest taskNum (retries + 1) inits outs

/-- A task that fails with `r` retries already on the clock and then `k`
more failures staying within the ceiling, followed by a success, emits
its output once with no further init call. -/
theorem workerSteps_within_ceiling {O : Type} (maxRetries : Nat) (o : O) :
    ∀ (k r inits taskNum : Nat) (outs : List (Nat × O)), r + k ≤ maxRetries →
      workerSteps maxRetries (List.replicate k TaskResult.err ++ [TaskResult.ok o])
        taskNum r inits outs = (inits, ((taskNum, o) :: outs).reverse) := by
  intro k
  induction k with
  | zero =>
    intro r inits taskNum outs _
    simp [workerSteps]
  | succ k ih =>
    intro r inits taskNum outs h
    have hle : ¬ (r + 1 > maxRetries) := by omega
    simp only [List.replicate_succ, List.cons_append, workerSteps, hle, if_false]
    exact ih (r + 1) inits taskNum outs (by omega)

/-- C9: a task that fails K times with K strictly below the retry
ceiling and then succeeds is retried in place (same task number, same
workload, no further init) and its output is produced exactly once; a
task failing beyond the ceiling (MAX_RETRIES + 1 consecutive failures)
triggers exactly one additional init call for that worker, after which
the same task number is retried against the fresh workload and its
output is still produced exactly once. -/
theorem C9_runner_retry {O : Type} :
    (∀ (K taskNum : Nat) (o : O), K < MAX_RETRIES →
      workerSteps MAX_RETRIES (List.replicate K TaskResult.err ++ [TaskResult.ok o])
        taskNum 0 1 [] = (1, [(taskNum, o)]))
    ∧ (∀ (taskNum : Nat) (o : O),
      workerSteps MAX_RETRIES
        (List.replicate (MAX_RETRIES + 1) TaskResult.err ++ [TaskResult.ok o])
        taskNum 0 1 [] = (2, [(taskNum, o)])) := by
  constructor
  · intro K taskNum o hK
    have := workerSteps_within_ceiling MAX_RETRIES o K 0 1 taskNum [] (by omega)
    simpa using this
  · intro taskNum o
    show workerSteps MAX_RETRIES
      (List.replicate 6 TaskResult.err ++ [TaskResult.ok o]) taskNum 0 1 [] = _
    simp only [List.replicate, List.cons_append, List.nil_append]
    simp only [workerSteps, MAX_RETRIES]
    norm_num

/-- Witness for C9: with failure count 3 (below the ceiling of 5) then a
success at task number 7, the worker keeps its single init and emits
(7, 42) once; with 6 consecutive failures then success, exactly one
additional init happens and (7, 42) is still emitted once. -/
theorem C9_runner_retry_witness :
    workerSteps MAX_RETRIES (List.replicate 3 TaskResult.err ++ [TaskResult.ok 42])
      7 0 1 [] = (1, [(7, 42)])
    ∧ workerSteps MAX_RETRIES
        (List.replicate (MAX_RETRIES + 1) TaskResult.err ++ [TaskResult.ok 42])
        7 0 1 [] = (2, [(7, 42)]) :=
  ⟨C9_runner_retry.1 3 7 42 (by decide), C9_runner_retry.2 7 42⟩

/-- Embedding of `RoundRobin<T>` (src/utils/runner.rs lines 135-139):
an item list plus a shared counter (`AtomicUsize`). The claims consider
single-threaded call sequences, so the counter is explicit state. -/
structure RoundRobin (T : Type) where
  items : List T
  idx : Nat

/-- Embedding of `RoundRobin::get` (src/utils/runner.rs lines 148-152):
`fetch_add(1)` on the counter, then index the list at the old counter
value modulo the list length. In Rust `idx % self.items.len()` panics on
an empty list (remainder by zero) and the indexing always succeeds
otherwise; we render the panic as a `none` result. -/
def RoundRobin.get {T : Type} (r : RoundRobin T) : Option T × RoundRobin T :=
  (r.items.get? (r.idx % r.items.length), { r with idx := r.idx + 1 })

/-- The results of `n` successive single-threaded calls to
`RoundRobin::get`, threading the counter state. -/
def roundRobinCalls {T : Type} (r : RoundRobin T) : Nat → List (Option T)
  | 0 => []
  | n + 1 => (r.get).1 :: roundRobinCalls (r.get).2 n

/-- C10: every call to `get` on a RoundRobin built from a non-empty item
list returns the element at position (previous counter value mod list
length) — in particular an element of the list — with the counter
increasing by one per call, so successive single-threaded calls cycle
through the list in order; for an empty list the remainder-by-zero
panics, rendered here as the absence of a returned element. -/
theorem C10_round_robin {T : Type} :
    (∀ r : RoundRobin T, r.items ≠ [] →
      ∃ t, (r.get).1 = some t ∧ t ∈ r.items
        ∧ r.items.get? (r.idx % r.items.length) = some t)
    ∧ (∀ r : RoundRobin T, ((r.get).2).idx = r.idx + 1 ∧ ((r.get).2).items = r.items)
    ∧ (∀ (r : RoundRobin T) (n : Nat),
        roundRobinCalls r n =
          (List.range n).map (fun k => r.items.get? ((r.idx + k) % r.items.length)))
    ∧ (∀ r : RoundRobin T, r.items = [] → (r.get).1 = none) := by
  refine ⟨?_, ?_, ?_, ?_⟩
  · intro r h
    have hlen : 0 < r.items.length := List.length_pos.mpr h
    have hlt : r.idx % r.items.length < r.items.length := Nat.mod_lt _ hlen
    refine ⟨r.items.get ⟨r.idx % r.items.length, hlt⟩, ?_, List.get_mem _ _ _, ?_⟩
    · simp [RoundRobin.get, List.get?_eq_get hlt]
    · exact List.get?_eq_get hlt
  · intro r
    exact ⟨rfl, rfl⟩
  · intro r n
    induction n generalizing r with
    | zero => simp [roundRobinCalls]
    | succ n ih =>
      simp only [roundRobinCalls, List.range_succ_eq_map, List.map_cons, List.map_map]
      refine congrArg₂ _ (by simp [RoundRobin.get]) ?_
      rw [ih]
      refine List.map_congr_left ?_
      intro k _
      have h : r.idx + 1 + k = r.idx + (k + 1) := by omega
      simp [RoundRobin.get, Function.comp, h]
  · intro r h
    simp [RoundRobin.get, h]

/-- Witness for C10: a concrete three-element RoundRobin with counter 4
returns its middle element, four successive calls from counter 0 cycle
in order wrapping around, and the empty-list RoundRobin yields nothing
(the modelled panic). -/
theorem C10_round_robin_witness :
    (∃ t, ((RoundRobin.mk [10, 20, 30] 4).get).1 = some t ∧ t ∈ [10, 20, 30]
      ∧ List.get? [10, 20, 30] (4 % 3) = some t)
    ∧ roundRobinCalls (RoundRobin.mk [10, 20, 30] 0) 4 = [some 10, some 20, some 30, some 10]
    ∧ ((RoundRobin.mk ([] : List Nat) 0).get).1 = none := by
  refine ⟨C10_round_robin.1 (RoundRobin.mk [10, 20, 30] 4) (by decide), ?_, ?_⟩
  · rw [C10_round_robin.2.2.1 (RoundRobin.mk [10, 20, 30] 0) 4]
    decide
  · exact C10_round_robin.2.2.2 (RoundRobin.mk ([] : List Nat) 0) rfl

/-- Embedding of `HashMap::remove(&output_task_number)` on the output
buffer (src/utils/runner.rs line 120): look up key `k`, returning the
value and the map without that entry. The buffer is rendered as an
association list whose keys are kept distinct, matching HashMap. -/
def lookupRemove {O : Type} (k : Nat) : List (Nat × O) → Option (O × List (Nat × O))
  | [] => none
  | (k', v) :: rest =>
    if k' = k then some (v, rest)
    else
      match lookupRemove k rest with
      | none => none
      | some (v', rest') => some (v', (k', v) :: rest')

/-- Embedding of `HashMap::insert(task_num, output)`
(src/utils/runner.rs line 125): replace the entry if the key is present,
otherwise append it. -/
def insertReplace {O : Type} (k : Nat) (v : O) : List (Nat × O) → List (Nat × O)
  | [] => [(k, v)]
  | (k', v') :: rest =>
    if k' = k then (k, v) :: rest else (k', v') :: insertReplace k v rest

theorem lookupRemove_none {O : Type} (k : Nat) :
    ∀ buf : List (Nat × O), lookupRemove k buf = none ↔ k ∉ buf.map Prod.fst := by
  intro buf
  induction buf with
  | nil => simp [lookupRemove]
  | cons hd tl ih =>
    obtain ⟨k', v⟩ := hd
    by_cases hk : k' = k
    · simp [lookupRemove, hk]
    · have hne : k ≠ k' := fun h => hk h.symm
      constructor
      · intro h
        have htl : lookupRemove k tl = none := by
          cases htl : lookupRemove k tl with
          | none => rfl
          | some p =>
            obtain ⟨v', rest'⟩ := p
            rw [lookupRemove, if_neg hk, htl] at h
            cases h
        simp [List.map_cons, hne, ih.mp htl]
      · intro h
        simp only [List.map_cons, List.mem_cons] at h
        push_neg at h
        rw [lookupRemove, if_neg hk, ih.mpr h.2]

theorem lookupRemove_some_perm {O : Type} (k : Nat) :
    ∀ (buf rest : List (Nat × O)) (v : O),
      lookupRemove k buf = some (v, rest) → buf.Perm ((k, v) :: rest) := by
  intro buf
  induction buf with
  | nil => intro rest v h; simp [lookupRemove] at h
  | cons hd tl ih =>
    intro rest v h
    obtain ⟨k', v'⟩ := hd
    by_cases hk : k' = k
    · rw [lookupRemove, if_pos hk] at h
      injection h with h
      injection h with h1 h2
      subst hk h1 h2
      exact List.Perm.refl _
    · rw [lookupRemove, if_neg hk] at h
      cases htl : lookupRemove k tl with
      | none => rw [htl] at h; cases h
      | some p =>
        obtain ⟨v₀, rest₀⟩ := p
        rw [htl] at h
        injection h with h
        injection h with h1 h2
        subst h1 h2
        exact ((ih rest₀ v₀ htl).cons _).trans (List.Perm.swap _ _ _)

theorem lookupRemove_some_length {O : Type} {k : Nat} {buf rest : List (Nat × O)} {v : O}
    (h : lookupRemove k buf = some (v, rest)) : rest.length < buf.length := by
  have := (lookupRemove_some_perm k buf rest v h).length_eq
  simp at this
  omega

theorem insertReplace_of_not_mem {O : Type} (k : Nat) (v : O) :
    ∀ buf : List (Nat × O), k ∉ buf.map Prod.fst →
      insertReplace k v buf = buf ++ [(k, v)] := by
  intro buf
  induction buf with
  | nil => intro _; rfl
  | cons hd tl ih =>
    intro h
    obtain ⟨k', v'⟩ := hd
    simp only [List.map_cons, List.mem_cons] at h
    push_neg at h
    rw [insertReplace, if_neg (by exact fun hc => h.1 hc.symm), ih h.2]
    rfl

/-- Embedding of the inner drain loop of `Runner::run`
(src/utils/runner.rs lines 118-123): `while let Some(output) =
outputs.remove(&output_task_number)`, emit it and bump the counter.
Each found entry leaves the buffer, so this terminates. Emissions are
accumulated in reverse onto `emitted`. -/
def drainOutputs {O : Type} (buf : List (Nat × O)) (outNum : Nat) (emitted : List (Nat × O)) :
    List (Nat × O) × Nat × List (Nat × O) :=
  match h : lookupRemove outNum buf with
  | none => (buf, outNum, emitted)
  | some (v, buf') => drainOutputs buf' (outNum + 1) ((outNum, v) :: emitted)
termination_by buf.length
decreasing_by exact lookupRemove_some_length h

theorem drainOutputs_eq_none {O : Type} {buf : List (Nat × O)} {outNum : Nat}
    {emitted : List (Nat × O)} (h : lookupRemove outNum buf = none) :
    drainOutputs buf outNum emitted = (buf, outNum, emitted) := by
  unfold drainOutputs
  split
  · rfl
  · next v buf' heq => rw [h] at heq; cases heq

theorem drainOutputs_eq_some {O : Type} {buf buf' : List (Nat × O)} {outNum : Nat} {v : O}
    {emitted : List (Nat × O)} (h : lookupRemove outNum buf = some (v, buf')) :
    drainOutputs buf outNum emitted = drainOutputs buf' (outNum + 1) ((outNum, v) :: emitted) := by
  conv_lhs => unfold drainOutputs
  split
  · next heq => rw [h] at heq; cases heq
  · next v₁ buf₁ heq =>
    rw [h] at heq
    injection heq with heq
    injection heq with h1 h2
    subst h1 h2
    rfl

theorem drainOutputs_spec {O : Type} :
    ∀ (n : Nat) (buf : List (Nat × O)) (outNum : Nat) (emitted : List (Nat × O)),
      buf.length ≤ n →
      (buf.map Prod.fst).Nodup →
      (∀ k ∈ buf.map Prod.fst, outNum ≤ k) →
      ∃ drained buf',
        drainOutputs buf outNum emitted
          = (buf', outNum + drained.length, drained.reverse ++ emitted)
        ∧ drained.map Prod.fst = List.range' outNum drained.length
        ∧ buf.Perm (drained ++ buf')
        ∧ (∀ k ∈ buf'.map Prod.fst, outNum + drained.length < k) := by
  intro n
  induction n with
  | zero =>
    intro buf outNum emitted hlen _ _
    have hbuf : buf = [] := List.length_eq_zero.mp (Nat.le_zero.mp hlen)
    subst hbuf
    have h0 : lookupRemove outNum ([] : List (Nat × O)) = none := rfl
    exact ⟨[], [], by rw [drainOutputs_eq_none h0]; simp, by simp, by simp, by simp⟩
  | succ n ih =>
    intro buf outNum emitted hlen hnd hlb
    cases hl : lookupRemove outNum buf with
    | none =>
      refine ⟨[], buf, by simp [drainOutputs_eq_none hl], by simp, by simp, ?_⟩
      intro k hk
      have h1 := hlb k hk
      have h2 : outNum ∉ buf.map Prod.fst := (lookupRemove_none outNum buf).mp hl
      have h3 : k ≠ outNum := fun he => h2 (he ▸ hk)
      simp only [List.length_nil]
      omega
    | some p =>
      obtain ⟨v, buf₁⟩ := p
      have hperm := lookupRemove_some_perm outNum buf buf₁ v hl
      have hkeys : (buf.map Prod.fst).Perm (outNum :: buf₁.map Prod.fst) := by
        simpa using hperm.map Prod.fst
      have hnd₁ : (outNum :: buf₁.map Prod.fst).Nodup := hkeys.nodup_iff.mp hnd
      have hout : outNum ∉ buf₁.map Prod.fst := (List.nodup_cons.mp hnd₁).1
      have hnd₂ : (buf₁.map Prod.fst).Nodup := (List.nodup_cons.mp hnd₁).2
      have hlb₁ : ∀ k ∈ buf₁.map Prod.fst, outNum + 1 ≤ k := by
        intro k hk
        have hm : k ∈ buf.map Prod.fst := hkeys.symm.subset (by simp [hk])
        have := hlb k hm
        have : k ≠ outNum := fun he => hout (he ▸ hk)
        omega
      have hlen₁ : buf₁.length ≤ n := by
        have := hkeys.length_eq
        simp at this
        omega
      obtain ⟨d₁, buf', heq, hids, hp, hub⟩ :=
        ih buf₁ (outNum + 1) ((outNum, v) :: emitted) hlen₁ hnd₂ hlb₁
      refine ⟨(outNum, v) :: d₁, buf', ?_, ?_, ?_, ?_⟩
      · rw [drainOutputs_eq_some hl, heq]
        have harith : outNum + 1 + d₁.length = outNum + ((outNum, v) :: d₁).length := by
          simp; omega
        rw [harith]
        simp
      · simp only [List.map_cons, hids, List.length_cons]
        rw [List.range'_succ]
      · exact hperm.trans (hp.cons _)
      · intro k hk
        have := hub k hk
        simp only [List.length_cons]
        omega

/-- Embedding of the output-gathering loop of `Runner::run`
(src/utils/runner.rs lines 112-127): receive `(task_num, output)` pairs
in arrival order; when the task number is the one currently awaited,
emit it, bump the counter and drain any buffered successors; otherwise
buffer the pair. Emissions are accumulated (reversed) and returned when
the channel closes. -/
def gatherLoop {O : Type} : List (Nat × O) → Nat → List (Nat × O) → List (Nat × O) → List (Nat × O)
  | [], _, _, emitted => emitted.reverse
  | (taskNum, output) :: rest, outNum, buf, emitted =>
    if taskNum = outNum then
      gatherLoop rest (drainOutputs buf (outNum + 1) ((taskNum, output) :: emitted)).2.1
        (drainOutputs buf (outNum + 1) ((taskNum, output) :: emitted)).1
        (drainOutputs buf (outNum + 1) ((taskNum, output) :: emitted)).2.2
    else
      gatherLoop rest outNum (insertReplace taskNum output buf) emitted

/-- The emissions of a whole `Runner::run` gathering phase: arrivals
processed from an initially awaited `starting_task_number` with an empty
buffer. -/
def gatherOutputs {O : Type} (start : Nat) (inputs : List (Nat × O)) : List (Nat × O) :=
  gatherLoop inputs start [] []

theorem gatherLoop_spec {O : Type} (inputs : List (Nat × O)) (start n : Nat) :
    ∀ (remaining : List (Nat × O)) (outNum : Nat) (buf emitted : List (Nat × O)),
      start ≤ outNum →
      emitted.reverse.map Prod.fst = List.range' start (outNum - start) →
      (buf.map Prod.fst).Nodup →
      (∀ k ∈ buf.map Prod.fst, outNum < k) →
      (emitted.map Prod.fst ++ buf.map Prod.fst ++ remaining.map Prod.fst).Perm
        (List.range' start n) →
      (∀ p ∈ emitted, p ∈ inputs) →
      (∀ p ∈ buf, p ∈ inputs) →
      (∀ p ∈ remaining, p ∈ inputs) →
      (gatherLoop remaining outNum buf emitted).map Prod.fst = List.range' start n
        ∧ ∀ p ∈ gatherLoop remaining outNum buf emitted, p ∈ inputs := by
  intro remaining
  induction remaining with
  | nil =>
    intro outNum buf emitted hso hem hnd hub hperm hmE hmB _
    have hElen : emitted.length = outNum - start := by
      have := congrArg List.length hem
      simpa using this
    have hcnt := List.perm_iff_count.mp hperm
    have hbuf : buf.map Prod.fst = [] := by
      by_contra hne
      obtain ⟨k, hk⟩ := List.exists_mem_of_ne_nil _ hne
      have hlen := hperm.length_eq
      simp only [List.append_nil, List.length_append, List.length_map,
        List.length_range'] at hlen
      have hbpos : 0 < (buf.map Prod.fst).length := List.length_pos.mpr hne
      have houtmem : outNum ∈ List.range' start n := by
        rw [List.mem_range'_1]
        constructor
        · exact hso
        · simp only [List.length_map] at hlen hbpos
          omega
      have hEnot : outNum ∉ emitted.map Prod.fst := by
        intro hmem
        have hmem' : outNum ∈ emitted.reverse.map Prod.fst := by simpa using hmem
        rw [hem, List.mem_range'_1] at hmem'
        omega
      have hBnot : outNum ∉ buf.map Prod.fst := fun hmem => absurd (hub outNum hmem) (by omega)
      have hcount := hcnt outNum
      simp only [List.map_nil, List.append_nil, List.count_append] at hcount
      rw [List.count_eq_zero.mpr hEnot, List.count_eq_zero.mpr hBnot] at hcount
      have : outNum ∉ List.range' start n := List.count_eq_zero.mp (by omega)
      exact this houtmem
    have hbuf' : buf = [] := List.map_eq_nil_iff.mp hbuf
    subst hbuf'
    have hlen := hperm.length_eq
    simp only [List.map_nil, List.append_nil, List.length_append, List.length_map,
      List.length_range', List.length_nil, Nat.add_zero] at hlen
    constructor
    · show emitted.reverse.map Prod.fst = _
      rw [hem]
      congr 1
      omega
    · intro p hp
      exact hmE p (List.mem_reverse.mp hp)
  | cons hd rest ih =>
    intro outNum buf emitted hso hem hnd hub hperm hmE hmB hmR
    obtain ⟨taskNum, output⟩ := hd
    have hcnt := List.perm_iff_count.mp hperm
    have hRange_nd : (List.range' start n).Nodup := List.nodup_range' start n
    by_cases htn : taskNum = outNum
    · subst htn
      have hlb : ∀ k ∈ buf.map Prod.fst, taskNum + 1 ≤ k := fun k hk => hub k hk
      obtain ⟨d, buf', heq, hids, hp, hubd⟩ :=
        drainOutputs_spec buf.length buf (taskNum + 1) ((taskNum, output) :: emitted)
          (le_refl _) hnd hlb
      have hstep : gatherLoop ((taskNum, output) :: rest) taskNum buf emitted
          = gatherLoop rest (taskNum + 1 + d.length) buf'
              (d.reverse ++ (taskNum, output) :: emitted) := by
        simp [gatherLoop, heq]
      rw [hstep]
      refine ih (taskNum + 1 + d.length) buf' (d.reverse ++ (taskNum, output) :: emitted)
        (by omega) ?_ ?_ ?_ ?_ ?_ ?_ ?_
      · have hsplit : (d.reverse ++ (taskNum, output) :: emitted).reverse.map Prod.fst
            = (emitted.reverse.map Prod.fst ++ [taskNum]) ++ d.map Prod.fst := by
          simp
        rw [hsplit, hem, hids]
        have e2 : List.range' start (taskNum - start) ++ [taskNum]
            = List.range' start (taskNum - start + 1) := by
          have e1 : [taskNum] = List.range' (start + (taskNum - start)) 1 := by
            rw [show start + (taskNum - start) = taskNum from by omega]
            simp
          rw [e1, List.range'_append_1, Nat.add_comm 1 (taskNum - start)]
        rw [e2]
        rw [show (taskNum + 1) = start + (taskNum - start + 1) from by omega,
          List.range'_append_1]
        congr 1
        omega
      · have hmapped := (hp.map Prod.fst).nodup_iff.mp hnd
        simp only [List.map_append] at hmapped
        exact hmapped.of_append_right
      · intro k hk
        exact hubd k hk
      · rw [List.perm_iff_count]
        intro a
        have h1 := hcnt a
        have h2 := List.perm_iff_count.mp (hp.map Prod.fst) a
        rw [List.map_append, List.count_append] at h2
        by_cases ha : a = taskNum
        · subst ha
          simp only [List.map_append, List.map_reverse, List.map_cons, List.count_append,
            List.count_reverse, List.count_cons_self] at h1 ⊢
          omega
        · simp only [List.map_append, List.map_reverse, List.map_cons, List.count_append,
            List.count_reverse, List.count_cons_of_ne ha] at h1 ⊢
          omega
      · intro p hpm
        rcases List.mem_append.mp hpm with hpd | hpc
        · exact hmB p (hp.mem_iff.mpr (List.mem_append.mpr (Or.inl (List.mem_reverse.mp hpd))))
        · rcases List.mem_cons.mp hpc with hpe | hpe
          · exact hmR _ (hpe ▸ List.mem_cons_self _ _)
          · exact hmE p hpe
      · intro p hpm
        exact hmB p (hp.mem_iff.mpr (List.mem_append.mpr (Or.inr hpm)))
      · intro p hpm
        exact hmR p (List.mem_cons_of_mem _ hpm)
    · have h1 := hcnt taskNum
      have hle1 := List.nodup_iff_count_le_one.mp hRange_nd taskNum
      simp only [List.map_cons, List.count_append, List.count_cons_self] at h1
      have hEnot : taskNum ∉ emitted.map Prod.fst := by
        apply List.not_mem_of_count_eq_zero
        omega
      have hBnot : taskNum ∉ buf.map Prod.fst := by
        apply List.not_mem_of_count_eq_zero
        omega
      have hmem : taskNum ∈ List.range' start n := by
        by_contra hmem
        have := List.count_eq_zero.mpr hmem
        omega
      have hge : start ≤ taskNum := (List.mem_range'_1.mp hmem).1
      have hgt : outNum < taskNum := by
        have hnotE : taskNum ∉ List.range' start (outNum - start) := by
          rw [← hem]
          intro hc
          exact hEnot (by simpa using hc)
        rw [List.mem_range'_1] at hnotE
        push_neg at hnotE
        have := hnotE hge
        omega
      have hins : insertReplace taskNum output buf = buf ++ [(taskNum, output)] :=
        insertReplace_of_not_mem taskNum output buf hBnot
      have hstep : gatherLoop ((taskNum, output) :: rest) outNum buf emitted
          = gatherLoop rest outNum (buf ++ [(taskNum, output)]) emitted := by
        simp only [gatherLoop, if_neg htn, hins]
      rw [hstep]
      refine ih outNum (buf ++ [(taskNum, output)]) emitted hso hem ?_ ?_ ?_ hmE ?_ ?_
      · simp only [List.map_append, List.map_cons, List.map_nil]
        rw [List.nodup_append]
        exact ⟨hnd, List.nodup_singleton _, by
          intro a haB haT
          simp only [List.mem_singleton] at haT
          exact hBnot (haT ▸ haB)⟩
      · intro k hk
        simp only [List.map_append, List.map_cons, List.map_nil, List.mem_append,
          List.mem_singleton] at hk
        rcases hk with hk | hk
        · exact hub k hk
        · omega
      · rw [List.perm_iff_count]
        intro a
        have ha1 := hcnt a
        by_cases ha : a = taskNum
        · subst ha
          simp only [List.map_cons, List.map_append, List.map_nil, List.count_append,
            List.count_cons_self, List.count_nil] at ha1 ⊢
          omega
        · simp only [List.map_cons, List.map_append, List.map_nil, List.count_append,
            List.count_cons_of_ne ha, List.count_nil] at ha1 ⊢
          omega
      · intro p hpm
        rcases List.mem_append.mp hpm with hpm | hpm
        · exact hmB p hpm
        · simp only [List.mem_singleton] at hpm
          exact hmR _ (hpm ▸ List.mem_cons_self _ _)
      · intro p hpm
        exact hmR p (List.mem_cons_of_mem _ hpm)

/-- C1: for every run of the gathering loop in which every claimed task
eventually succeeds — the received pairs carry task numbers forming an
arbitrary permutation of start, start+1, …, start+n-1 — emit is invoked
exactly once per task number, in strictly increasing task-number order
starting from the starting task number, with no gaps and no duplicates
(the emitted task numbers are exactly start, …, start+n-1 in order), and
every emitted pair is one of the received pairs: out-of-order
completions are buffered by task number and emitted only after every
predecessor has been emitted. -/
theorem C1_runner_ordering {O : Type} (inputs : List (Nat × O)) (start n : Nat)
    (h : (inputs.map Prod.fst).Perm (List.range' start n)) :
    (gatherOutputs start inputs).map Prod.fst = List.range' start n
    ∧ ∀ p ∈ gatherOutputs start inputs, p ∈ inputs := by
  exact gatherLoop_spec inputs start n inputs start [] []
    (le_refl _) (by simp) (by simp) (by simp) (by simpa using h) (by simp) (by simp)
    (fun p hp => hp)

/-- Witness for C1: ten task outputs numbered 0..9 arriving in the
scrambled order 3,0,1,5,2,4,9,7,8,6 are emitted as exactly 0,1,…,9 with
each emitted pair among the received ones. -/
theorem C1_runner_ordering_witness :
    (gatherOutputs 0 [(3, 30), (0, 0), (1, 10), (5, 50), (2, 20), (4, 40), (9, 90),
      (7, 70), (8, 80), (6, 60)]).map Prod.fst = List.range' 0 10
    ∧ ∀ p ∈ gatherOutputs 0 [(3, 30), (0, 0), (1, 10), (5, 50), (2, 20), (4, 40), (9, 90),
      (7, 70), (8, 80), (6, 60)],
        p ∈ [(3, 30), (0, 0), (1, 10), (5, 50), (2, 20), (4, 40), (9, 90),
          (7, 70), (8, 80), (6, 60)] :=
  C1_runner_ordering _ 0 10 (by decide)

/-! ## Extrinsic decoding (src/decoding/extrinsic_decoder.rs and
src/decoding/extrinsic_type_info.rs)

The decoder is generic over an `ExtrinsicTypeInfo` provider and a
`scale_type_resolver::TypeResolver`; the external `scale_value`
byte-decoding and the metadata-derived info lookups are abstracted as
function parameters bundled in `DecodeEnv`, generic over the type-id
type `T` and the decoded-value type `V`. Bytes are lists of `Nat`
(each < 256 in real inputs; no arithmetic here depends on that). -/

/-- Embedding of `Arg<TypeId>` (src/decoding/extrinsic_type_info.rs
lines 15-19). -/
structure Arg (T : Type) where
  name : String
  id : T

/-- Embedding of `ExtrinsicInfo<TypeId>` (src/decoding/extrinsic_type_info.rs
lines 21-26). -/
structure ExtrinsicInfo (T : Type) where
  pallet_name : String
  call_name : String
  args : List (Arg T)

/-- Embedding of `ExtrinsicSignatureInfo<TypeId>`
(src/decoding/extrinsic_type_info.rs lines 28-33). -/
structure ExtrinsicSignatureInfo (T : Type) where
  address_id : T
  signature_id : T
  signed_extension_ids : List (Arg T)

/-- Embedding of `ExtrinsicCallData` (src/decoding/extrinsic_decoder.rs
lines 22-27). -/
structure ExtrinsicCallData (V : Type) where
  pallet_name : String
  call_name : String
  args : List (String × V)

/-- Embedding of the `Extrinsic` result enum
(src/decoding/extrinsic_decoder.rs lines 9-20): its only variants are
`V4Unsigned` and `V4Signed`. -/
inductive Extrinsic (V : Type) where
  | V4Unsigned (call_data : ExtrinsicCallData V)
  | V4Signed (address : String) (signature : String)
      (signed_exts : List (String × V)) (call_data : ExtrinsicCallData V)

/-- The capabilities `decode_extrinsic_inner` consumes, abstracted:
`decodeAsType` stands for `scale_value::scale::decode_as_type` with the
given resolver (consuming a prefix of the cursor; `Except.error` when the
external decoder fails, in which case the cursor is taken unconsumed);
`getExtrinsicInfo`/`getSignatureInfo` stand for the `ExtrinsicTypeInfo`
impl of the metadata in play; the renderers stand for the
`AccountId32`/hex display of the raw consumed bytes. -/
structure DecodeEnv (T V : Type) where
  decodeAsType : T → List Nat → Except String (V × List Nat)
  getExtrinsicInfo : Nat → Nat → Except String (ExtrinsicInfo T)
  getSignatureInfo : Except String (ExtrinsicSignatureInfo T)
  renderAddress : List Nat → String
  renderSignature : List Nat → String

/-- Little-endian byte value, as used by multi-byte compact modes. -/
def leValue : List Nat → Nat
  | [] => 0
  | b :: rest => b + 256 * leValue rest

/-- Modelled from the SCALE codec (`parity_scale_codec`
`Compact::<u64>::decode`, an external crate): the two low bits of the
first byte select single-byte, two-byte, four-byte or big-integer mode;
the value is the remaining bits little-endian. Returns the decoded
length and the rest of the cursor. -/
def decodeCompactU64 : List Nat → Except String (Nat × List Nat)
  | [] => Except.error "Cannot decode the extrinsic length"
  | b :: rest =>
    if b % 4 = 0 then Except.ok (b / 4, rest)
    else if b % 4 = 1 then
      match rest with
      | b1 :: rest' => Except.ok ((b + 256 * b1) / 4, rest')
      | [] => Except.error "Cannot decode the extrinsic length"
    else if b % 4 = 2 then
      match rest with
      | b1 :: b2 :: b3 :: rest' =>
        Except.ok ((b + 256 * b1 + 65536 * b2 + 16777216 * b3) / 4, rest')
      | _ => Except.error "Cannot decode the extrinsic length"
    else
      if b / 4 + 4 ≤ rest.length then
        Except.ok (leValue (rest.take (b / 4 + 4)), rest.drop (b / 4 + 4))
      else Except.error "Cannot decode the extrinsic length"

/-- Embedding of the argument-decoding loop of
`decode_v4_extrinsic_call_data` (src/decoding/extrinsic_decoder.rs lines
124-143): decode each declared argument in order; a failure errors out
(the source's tracing re-decode, which exists to build a richer message
for the same failure, is abstracted into the single decoder). -/
def decodeArgs {T V : Type} (env : DecodeEnv T V) :
    List (Arg T) → List Nat → Except String (List (String × V) × List Nat)
  | [], cursor => Except.ok ([], cursor)
  | arg :: rest, cursor =>
    match env.decodeAsType arg.id cursor with
    | Except.error _ => Except.error "Failed to decode type into a Value in extrinsic"
    | Except.ok (v, cursor') =>
      match decodeArgs env rest cursor' with
      | Except.error e => Except.error e
      | Except.ok (args, cursor'') => Except.ok ((arg.name, v) :: args, cursor'')

/-- Embedding of `decode_v4_extrinsic_call_data`
(src/decoding/extrinsic_decoder.rs lines 114-166): read the pallet and
call index bytes, resolve the `ExtrinsicInfo`, decode each argument in
order, and fail if bytes are left over. -/
def decode_v4_extrinsic_call_data {T V : Type} (env : DecodeEnv T V) (cursor : List Nat) :
    Except String (ExtrinsicCallData V) :=
  match cursor with
  | [] => Except.error "Not enough data to fill buffer"
  | pallet_index :: cursor =>
    match cursor with
    | [] => Except.error "Not enough data to fill buffer"
    | call_index :: cursor =>
      match env.getExtrinsicInfo pallet_index call_index with
      | Except.error e => Except.error e
      | Except.ok info =>
        match decodeArgs env info.args cursor with
        | Except.error e => Except.error e
        | Except.ok (args, cursor') =>
          if cursor' ≠ [] then
            Except.error "leftover bytes found when trying to decode"
          else
            Except.ok ⟨info.pallet_name, info.call_name, args⟩

/-- The consumed-byte tracking of `with_consumed_bytes`
(src/decoding/extrinsic_decoder.rs lines 168-173) for a decode whose
value result is discarded by the caller (the address and signature
decodes, whose errors the source ignores): the cursor after the call,
and the consumed prefix. -/
def consumeDiscarding {T V : Type} (env : DecodeEnv T V) (id : T) (cursor : List Nat) :
    List Nat × List Nat :=
  match env.decodeAsType id cursor with
  | Except.error _ => (cursor, [])
  | Except.ok (_, cursor') => (cursor', cursor.take (cursor.length - cursor'.length))

/-- Embedding of the signed-extension decoding loop of
`decode_v4_extrinsic` (src/decoding/extrinsic_decoder.rs lines 101-104). -/
def decodeSignedExts {T V : Type} (env : DecodeEnv T V) :
    List (Arg T) → List Nat → Except String (List (String × V) × List Nat)
  | [], cursor => Except.ok ([], cursor)
  | ext :: rest, cursor =>
    match env.decodeAsType ext.id cursor with
    | Except.error e => Except.error e
    | Except.ok (v, cursor') =>
      match decodeSignedExts env rest cursor' with
      | Except.error e => Except.error e
      | Except.ok (exts, cursor'') => Except.ok ((ext.name, v) :: exts, cursor'')

/-- Embedding of `decode_v4_extrinsic` (src/decoding/extrinsic_decoder.rs
lines 74-112): the high bit of the first envelope byte is the signed
flag; a signed extrinsic decodes address, signature and the declared
signed extensions before the call data, an unsigned one goes straight to
the call data. -/
def decode_v4_extrinsic {T V : Type} (env : DecodeEnv T V) (bytes : List Nat) :
    Except String (Extrinsic V) :=
  let is_signed := 128 ≤ bytes.headD 0 % 256
  let cursor := bytes.tail
  if is_signed then
    match env.getSignatureInfo with
    | Except.error e => Except.error e
    | Except.ok si =>
      let (cursor₁, address_bytes) := consumeDiscarding env si.address_id cursor
      let address := env.renderAddress address_bytes
      let (cursor₂, signature_bytes) := consumeDiscarding env si.signature_id cursor₁
      let signature := env.renderSignature signature_bytes
      match decodeSignedExts env si.signed_extension_ids cursor₂ with
      | Except.error e => Except.error e
      | Except.ok (signed_exts, cursor₃) =>
        match decode_v4_extrinsic_call_data env cursor₃ with
        | Except.error e => Except.error e
        | Except.ok call_data =>
          Except.ok (Extrinsic.V4Signed address signature signed_exts call_data)
  else
    match decode_v4_extrinsic_call_data env cursor with
    | Except.error e => Except.error e
    | Except.ok call_data => Except.ok (Extrinsic.V4Unsigned call_data)

/-- Embedding of `decode_extrinsic_inner` (src/decoding/extrinsic_decoder.rs
lines 43-72): decode the compact length, require the remaining bytes to
match it exactly, take the extrinsic bytes, require at least one byte,
read the envelope version from the low 7 bits of the first byte, and
dispatch: version 4 only; every other version is an error. -/
def decode_extrinsic_inner {T V : Type} (env : DecodeEnv T V) (bytes : List Nat) :
    Except String (Extrinsic V) :=
  match decodeCompactU64 bytes with
  | Except.error e => Except.error e
  | Except.ok (ext_len, cursor) =>
    if cursor.length ≠ ext_len then
      Except.error "Number of bytes differs from reported extrinsic length"
    else if ext_len ≤ cursor.length then
      let ext_bytes := cursor.take ext_len
      if ext_bytes.length < 1 then
        Except.error "Missing extrinsic bytes"
      else
        let version := ext_bytes.headD 0 % 128
        if version = 4 then decode_v4_extrinsic env ext_bytes
        else Except.error ("extrinsic version " ++ toString version ++ " is not supported")
    else Except.error "Missing extrinsic bytes"

/-- The three variants of the original claim's "general" envelope do not
exist in the source: a successful decode is `V4Unsigned` or `V4Signed`. -/
theorem extrinsic_cases {V : Type} (ext : Extrinsic V) :
    (∃ cd, ext = Extrinsic.V4Unsigned cd)
    ∨ (∃ a s se cd, ext = Extrinsic.V4Signed a s se cd) := by
  cases ext with
  | V4Unsigned cd => exact Or.inl ⟨cd, rfl⟩
  | V4Signed a s se cd => exact Or.inr ⟨a, s, se, cd, rfl⟩

/-- C3 (amended): decode_extrinsic_inner supports exactly one envelope
layout — format version 4, selected by the low 7 bits of the first
post-length byte; for every input byte string whose envelope version is
any other value (including the version-5 extension-bearing "general"
envelope) it fails with a DecodeError for that item only; and a
successful decode produces exactly one of the mutually exclusive result
variants V4Unsigned or V4Signed (the result type has no General
variant). -/
theorem C3_envelope_versions {T V : Type} (env : DecodeEnv T V) (bytes : List Nat) :
    (∀ len cursor, decodeCompactU64 bytes = Except.ok (len, cursor) →
      cursor.headD 0 % 128 ≠ 4 → ∃ e, decode_extrinsic_inner env bytes = Except.error e)
    ∧ (∀ ext, decode_extrinsic_inner env bytes = Except.ok ext →
      (∃ cd, ext = Extrinsic.V4Unsigned cd)
      ∨ (∃ a s se cd, ext = Extrinsic.V4Signed a s se cd)) := by
  constructor
  · intro len cursor hc hv
    simp only [decode_extrinsic_inner, hc]
    by_cases hlen : cursor.length ≠ len
    · exact ⟨_, by rw [if_pos hlen]⟩
    · push_neg at hlen
      rw [if_neg (by omega), if_pos (by omega)]
      by_cases hempty : (cursor.take len).length < 1
      · exact ⟨_, by rw [if_pos hempty]⟩
      · rw [if_neg hempty]
        have hx : (cursor.take len).headD 0 = cursor.headD 0 := by
          cases cursor with
          | nil => simp
          | cons c cs =>
            cases len with
            | zero =>
              simp at hlen
            | succ m => simp [List.take]
        rw [if_neg (by rw [hx]; exact hv)]
        exact ⟨_, rfl⟩
  · intro ext _
    exact extrinsic_cases ext

/-- A concrete environment for the counterexample: a resolver decoding
nothing, a pallet with one zero-argument call, empty signature info. -/
def envC3 : DecodeEnv Unit Unit where
  decodeAsType := fun _ c => Except.ok ((), c)
  getExtrinsicInfo := fun _ _ => Except.ok ⟨"p", "c", []⟩
  getSignatureInfo := Except.ok ⟨(), (), []⟩
  renderAddress := fun _ => ""
  renderSignature := fun _ => ""

/-- Counterexample to C3 as stated: the byte string `[12, 5, 0, 0]`
carries an extension-bearing unsigned "general" envelope marker (version
5 in its low 7 bits), yet decode_extrinsic_inner rejects it exactly like
any other non-4 version, while the same body under version 4,
`[12, 4, 0, 0]`, decodes; so only one envelope layout is supported, not
two, and no General result variant exists. -/
theorem C3_envelope_versions_counterexample :
    decode_extrinsic_inner envC3 [12, 5, 0, 0]
      = Except.error "extrinsic version 5 is not supported"
    ∧ decode_extrinsic_inner envC3 [12, 4, 0, 0]
      = Except.ok (Extrinsic.V4Unsigned ⟨"p", "c", []⟩) := by
  constructor
  · rfl
  · rfl

/-- Witness for C3: instantiates `C3_envelope_versions` at the concrete
version-5 input, discharging the compact-length and version premises. -/
theorem C3_envelope_versions_witness :
    ∃ e, decode_extrinsic_inner envC3 [12, 5, 0, 0] = Except.error e :=
  (C3_envelope_versions envC3 [12, 5, 0, 0]).1 3 [5, 0, 0] (by rfl) (by decide)

/-! ## Storage decoding (src/decoding/storage_decoder.rs and
src/decoding/storage_type_info.rs) -/

/-- Embedding of `StorageHasher` (src/decoding/storage_type_info.rs
lines 52-68). -/
inductive StorageHasher where
  | Blake2_128
  | Blake2_256
  | Blake2_128Concat
  | Twox128
  | Twox256
  | Twox64Concat
  | Identity
deriving DecidableEq

/-- Embedding of `storage_type_info::StorageKey<TypeId>`
(src/decoding/storage_type_info.rs lines 43-49): one declared key
component of a storage map. -/
structure StorageTypeKey (T : Type) where
  hasher : StorageHasher
  key_id : T

/-- Embedding of `StorageInfo<TypeId>` (src/decoding/storage_type_info.rs
lines 35-41). -/
structure StorageInfo (T : Type) where
  keys : List (StorageTypeKey T)
  value_id : T

/-- Embedding of `storage_decoder::StorageKey` (the decoded
representation, src/decoding/storage_decoder.rs lines 10-15). -/
structure StorageKey (V : Type) where
  hash : List Nat
  value : Option V
  hasher : StorageHasher

/-- The capabilities the storage decoder consumes, abstracted:
`getStorageInfo` stands for the `StorageTypeInfo` impl of the metadata,
`decodeAsType` for `decode_or_trace` (src/decoding/storage_decoder.rs
lines 219-235, itself `scale_value::scale::decode_as_type` with a
tracing retry for the same failure), and `twox128` for
`sp_crypto_hashing::twox_128`. -/
structure StorageDecodeEnv (T V : Type) where
  getStorageInfo : String → String → Except String (StorageInfo T)
  decodeAsType : T → List Nat → Except String (V × List Nat)
  twox128 : String → List Nat

/-- Embedding of `strip_bytes` (src/decoding/storage_decoder.rs
lines 209-217): split off the first `num` bytes or fail. -/
def stripBytes (cursor : List Nat) (num : Nat) : Except String (List Nat × List Nat) :=
  if num ≤ cursor.length then Except.ok (cursor.take num, cursor.drop num)
  else Except.error "Cannot get bytes from cursor; not enough input"

/-- One key component of the per-key loop of `decode_storage_keys_inner`
(src/decoding/storage_decoder.rs lines 72-106): one-way hashers consume
only their fixed-width hash and carry no value; Concat hashers consume
the hash prefix then decode a value; Identity decodes a value with no
hash bytes. -/
def decodeOneKey {T V : Type} (env : StorageDecodeEnv T V) (ki : StorageTypeKey T)
    (cursor : List Nat) : Except String (StorageKey V × List Nat) :=
  match ki.hasher with
  | StorageHasher.Blake2_128 | StorageHasher.Twox128 =>
    match stripBytes cursor 16 with
    | Except.error e => Except.error e
    | Except.ok (hash, cursor') => Except.ok (⟨hash, none, ki.hasher⟩, cursor')
  | StorageHasher.Blake2_256 | StorageHasher.Twox256 =>
    match stripBytes cursor 32 with
    | Except.error e => Except.error e
    | Except.ok (hash, cursor') => Except.ok (⟨hash, none, ki.hasher⟩, cursor')
  | StorageHasher.Blake2_128Concat =>
    match stripBytes cursor 16 with
    | Except.error e => Except.error e
    | Except.ok (hash, cursor') =>
      match env.decodeAsType ki.key_id cursor' with
      | Except.error _ => Except.error "Cannot decode Blake2_128Concat storage key"
      | Except.ok (v, cursor'') => Except.ok (⟨hash, some v, ki.hasher⟩, cursor'')
  | StorageHasher.Twox64Concat =>
    match stripBytes cursor 8 with
    | Except.error e => Except.error e
    | Except.ok (hash, cursor') =>
      match env.decodeAsType ki.key_id cursor' with
      | Except.error _ => Except.error "Cannot decode Twox64Concat storage key"
      | Except.ok (v, cursor'') => Except.ok (⟨hash, some v, ki.hasher⟩, cursor'')
  | StorageHasher.Identity =>
    match env.decodeAsType ki.key_id cursor with
    | Except.error _ => Except.error "Cannot decode Identity storage key"
    | Except.ok (v, cursor') => Except.ok (⟨[], some v, ki.hasher⟩, cursor')

/-- The per-key collection loop of `decode_storage_keys_inner`
(src/decoding/storage_decoder.rs lines 72-106): components decoded in
declared order against one advancing cursor. -/
def decodeKeysList {T V : Type} (env : StorageDecodeEnv T V) :
    List (StorageTypeKey T) → List Nat → Except String (List (StorageKey V) × List Nat)
  | [], cursor => Except.ok ([], cursor)
  | ki :: rest, cursor =>
    match decodeOneKey env ki cursor with
    | Except.error e => Except.error e
    | Except.ok (k, cursor') =>
      match decodeKeysList env rest cursor' with
      | Except.error e => Except.error e
      | Except.ok (ks, cursor'') => Except.ok (k :: ks, cursor'')

/-- Embedding of `decode_storage_keys_inner`
(src/decoding/storage_decoder.rs lines 47-114): look up the storage
info, strip the 32-byte pallet/entry hash lead-in and require it to
match the recomputed twox128 pair, decode every declared key component,
then fail if bytes are left over. -/
def decode_storage_keys_inner {T V : Type} (env : StorageDecodeEnv T V)
    (pallet_name storage_entry : String) (bytes : List Nat) :
    Except String (List (StorageKey V)) :=
  match env.getStorageInfo pallet_name storage_entry with
  | Except.error e => Except.error e
  | Except.ok info =>
    match stripBytes bytes 32 with
    | Except.error _ =>
      Except.error "Cannot strip the pallet and storage entry prefix from the storage key"
    | Except.ok (lead, cursor) =>
      if lead ≠ env.twox128 pallet_name ++ env.twox128 storage_entry then
        Except.error "Storage prefix does not match expected prefix"
      else
        match decodeKeysList env info.keys cursor with
        | Except.error e => Except.error e
        | Except.ok (keys, cursor') =>
          if cursor' ≠ [] then Except.error "leftover bytes decoding storage keys"
          else Except.ok keys

/-- Embedding of `decode_storage_value_inner`
(src/decoding/storage_decoder.rs lines 183-207): decode the value type
over the whole byte span and fail if bytes are left over. -/
def decode_storage_value_inner {T V : Type} (env : StorageDecodeEnv T V)
    (pallet_name storage_entry : String) (bytes : List Nat) : Except String V :=
  match env.getStorageInfo pallet_name storage_entry with
  | Except.error e => Except.error e
  | Except.ok info =>
    match env.decodeAsType info.value_id bytes with
    | Except.error e => Except.error e
    | Except.ok (v, cursor) =>
      if cursor ≠ [] then Except.error "leftover bytes decoding storage value"
      else Except.ok v

theorem stripBytes_ok {cursor hash rest : List Nat} {num : Nat}
    (h : stripBytes cursor num = Except.ok (hash, rest)) :
    hash = cursor.take num ∧ rest = cursor.drop num ∧ num ≤ cursor.length
    ∧ hash.length = num := by
  unfold stripBytes at h
  split at h
  · next hle =>
    injection h with h'
    injection h' with h1 h2
    subst h1 h2
    exact ⟨rfl, rfl, hle, by simp [List.length_take]; omega⟩
  · cases h

theorem decodeOneKey_shape {T V : Type} (env : StorageDecodeEnv T V)
    (ki : StorageTypeKey T) (cursor : List Nat) (k : StorageKey V) (cursor' : List Nat)
    (h : decodeOneKey env ki cursor = Except.ok (k, cursor')) :
    k.hasher = ki.hasher
    ∧ ((k.hasher = StorageHasher.Blake2_128 ∨ k.hasher = StorageHasher.Twox128) →
        k.value = none ∧ k.hash.length = 16)
    ∧ ((k.hasher = StorageHasher.Blake2_256 ∨ k.hasher = StorageHasher.Twox256) →
        k.value = none ∧ k.hash.length = 32)
    ∧ (k.hasher = StorageHasher.Blake2_128Concat →
        k.hash.length = 16 ∧ ∃ v, k.value = some v)
    ∧ (k.hasher = StorageHasher.Twox64Concat →
        k.hash.length = 8 ∧ ∃ v, k.value = some v)
    ∧ (k.hasher = StorageHasher.Identity →
        k.hash = [] ∧ ∃ v, k.value = some v) := by
  obtain ⟨hasher, key_id⟩ := ki
  cases hasher
  case Blake2_128 =>
    simp only [decodeOneKey] at h
    split at h
    · cases h
    · next hash c heq =>
      injection h with h'
      injection h' with h1 h2
      subst h1
      obtain ⟨-, -, -, hlen⟩ := stripBytes_ok heq
      exact ⟨rfl, fun _ => ⟨rfl, hlen⟩, by simp, by simp, by simp, by simp⟩
  case Twox128 =>
    simp only [decodeOneKey] at h
    split at h
    · cases h
    · next hash c heq =>
      injection h with h'
      injection h' with h1 h2
      subst h1
      obtain ⟨-, -, -, hlen⟩ := stripBytes_ok heq
      exact ⟨rfl, fun _ => ⟨rfl, hlen⟩, by simp, by simp, by simp, by simp⟩
  case Blake2_256 =>
    simp only [decodeOneKey] at h
    split at h
    · cases h
    · next hash c heq =>
      injection h with h'
      injection h' with h1 h2
      subst h1
      obtain ⟨-, -, -, hlen⟩ := stripBytes_ok heq
      exact ⟨rfl, by simp, fun _ => ⟨rfl, hlen⟩, by simp, by simp, by simp⟩
  case Twox256 =>
    simp only [decodeOneKey] at h
    split at h
    · cases h
    · next hash c heq =>
      injection h with h'
      injection h' with h1 h2
      subst h1
      obtain ⟨-, -, -, hlen⟩ := stripBytes_ok heq
      exact ⟨rfl, by simp, fun _ => ⟨rfl, hlen⟩, by simp, by simp, by simp⟩
  case Blake2_128Concat =>
    simp only [decodeOneKey] at h
    split at h
    · cases h
    · next hash c heq =>
      split at h
      · cases h
      · next v c2 heq2 =>
        injection h with h'
        injection h' with h1 h2
        subst h1
        obtain ⟨-, -, -, hlen⟩ := stripBytes_ok heq
        exact ⟨rfl, by simp, by simp, fun _ => ⟨hlen, v, rfl⟩, by simp, by simp⟩
  case Twox64Concat =>
    simp only [decodeOneKey] at h
    split at h
    · cases h
    · next hash c heq =>
      split at h
      · cases h
      · next v c2 heq2 =>
        injection h with h'
        injection h' with h1 h2
        subst h1
        obtain ⟨-, -, -, hlen⟩ := stripBytes_ok heq
        exact ⟨rfl, by simp, by simp, by simp, fun _ => ⟨hlen, v, rfl⟩, by simp⟩
  case Identity =>
    simp only [decodeOneKey] at h
    split at h
    · cases h
    · next v c heq =>
      injection h with h'
      injection h' with h1 h2
      subst h1
      exact ⟨rfl, by simp, by simp, by simp, by simp, fun _ => ⟨rfl, v, rfl⟩⟩

theorem decodeKeysList_shapes {T V : Type} (env : StorageDecodeEnv T V) :
    ∀ (kis : List (StorageTypeKey T)) (cursor : List Nat) (out : List (StorageKey V))
      (cursor' : List Nat),
      decodeKeysList env kis cursor = Except.ok (out, cursor') →
      ∀ k ∈ out,
        ((k.hasher = StorageHasher.Blake2_128 ∨ k.hasher = StorageHasher.Twox128) →
            k.value = none ∧ k.hash.length = 16)
        ∧ ((k.hasher = StorageHasher.Blake2_256 ∨ k.hasher = StorageHasher.Twox256) →
            k.value = none ∧ k.hash.length = 32)
        ∧ (k.hasher = StorageHasher.Blake2_128Concat →
            k.hash.length = 16 ∧ ∃ v, k.value = some v)
        ∧ (k.hasher = StorageHasher.Twox64Concat →
            k.hash.length = 8 ∧ ∃ v, k.value = some v)
        ∧ (k.hasher = StorageHasher.Identity →
            k.hash = [] ∧ ∃ v, k.value = some v) := by
  intro kis
  induction kis with
  | nil =>
    intro cursor out cursor' h k hk
    simp only [decodeKeysList] at h
    injection h with h'
    injection h' with h1 h2
    subst h1
    cases hk
  | cons ki rest ih =>
    intro cursor out cursor' h k hk
    simp only [decodeKeysList] at h
    split at h
    · cases h
    · next k₁ c₁ heq₁ =>
      split at h
      · cases h
      · next ks c₂ heq₂ =>
        injection h with h'
        injection h' with h1 h2
        subst h1
        rcases List.mem_cons.mp hk with hk | hk
        · subst hk
          exact (decodeOneKey_shape env ki cursor k c₁ heq₁).2
        · exact ih c₁ ks c₂ heq₂ k hk

/-- C8: in every successfully decoded storage key, each key component
with a one-way hasher (Blake2_128, Twox128, Blake2_256, Twox256)
consumes only its fixed-width hash — 16 bytes for the 128-bit variants,
32 for the 256-bit variants — and carries no decoded value, while each
component with a reversible hasher carries a value decoded at the
declared key TypeId together with its hash bytes (16 for
Blake2_128Concat, 8 for Twox64Concat, none for Identity). -/
theorem C8_hasher_value_shapes {T V : Type} (env : StorageDecodeEnv T V)
    (pallet_name storage_entry : String) (bytes : List Nat) (keys : List (StorageKey V))
    (h : decode_storage_keys_inner env pallet_name storage_entry bytes = Except.ok keys) :
    ∀ k ∈ keys,
      ((k.hasher = StorageHasher.Blake2_128 ∨ k.hasher = StorageHasher.Twox128) →
          k.value = none ∧ k.hash.length = 16)
      ∧ ((k.hasher = StorageHasher.Blake2_256 ∨ k.hasher = StorageHasher.Twox256) →
          k.value = none ∧ k.hash.length = 32)
      ∧ (k.hasher = StorageHasher.Blake2_128Concat →
          k.hash.length = 16 ∧ ∃ v, k.value = some v)
      ∧ (k.hasher = StorageHasher.Twox64Concat →
          k.hash.length = 8 ∧ ∃ v, k.value = some v)
      ∧ (k.hasher = StorageHasher.Identity →
          k.hash = [] ∧ ∃ v, k.value = some v) := by
  simp only [decode_storage_keys_inner] at h
  split at h
  · cases h
  · next info hinfo =>
    split at h
    · cases h
    · next lead cursor hstrip =>
      split at h
      · cases h
      · split at h
        · cases h
        · next ks c₂ hkeys =>
          split at h
          · cases h
          · injection h with h'
            subst h'
            exact decodeKeysList_shapes env info.keys cursor ks c₂ hkeys

/-! ## Leftover-bytes lemmas (C6)

SCALE decoding is prefix-based: a decoder consumes a prefix of the
cursor determined by the data, so appending bytes leaves the consumed
prefix unchanged. This holds definitionally for the embedded compact
and strip primitives and is a hypothesis on the abstract `decodeAsType`
(true of the external scale_value decoder). -/

theorem decodeCompactU64_append {bytes s rest : List Nat} {v : Nat}
    (h : decodeCompactU64 bytes = Except.ok (v, rest)) :
    decodeCompactU64 (bytes ++ s) = Except.ok (v, rest ++ s) := by
  cases bytes with
  | nil => simp [decodeCompactU64] at h
  | cons b t =>
    simp only [decodeCompactU64] at h
    simp only [List.cons_append, decodeCompactU64]
    split_ifs at h with h0 h1 h2 hle
    · rw [if_pos h0]
      injection h with h'
      injection h' with hv hr
      subst hv hr
      rfl
    · rw [if_neg h0, if_pos h1]
      cases t with
      | nil => cases h
      | cons b1 t' =>
        injection h with h'
        injection h' with hv hr
        subst hv hr
        rfl
    · rw [if_neg h0, if_neg h1, if_pos h2]
      rcases t with - | ⟨b1, - | ⟨b2, - | ⟨b3, t'⟩⟩⟩
      · cases h
      · cases h
      · cases h
      · injection h with h'
        injection h' with hv hr
        subst hv hr
        rfl
    · rw [if_neg h0, if_neg h1, if_neg h2,
        if_pos (show b / 4 + 4 ≤ (t ++ s).length by simp only [List.length_append]; omega)]
      injection h with h'
      injection h' with hv hr
      subst hv hr
      rw [List.take_append_of_le_length hle, List.drop_append_of_le_length hle]

theorem decode_extrinsic_inner_ok_length {T V : Type} (env : DecodeEnv T V)
    (bytes : List Nat) (ext : Extrinsic V)
    (h : decode_extrinsic_inner env bytes = Except.ok ext) :
    ∃ len cursor, decodeCompactU64 bytes = Except.ok (len, cursor) ∧ cursor.length = len := by
  simp only [decode_extrinsic_inner] at h
  split at h
  · cases h
  · next len cursor heq =>
    split_ifs at h with h1 h2 h3 h4
    exact ⟨len, cursor, heq, by omega⟩

theorem decode_extrinsic_leftover {T V : Type} (env : DecodeEnv T V)
    (bytes suffix : List Nat) (ext : Extrinsic V)
    (h : decode_extrinsic_inner env bytes = Except.ok ext) (hs : suffix ≠ []) :
    decode_extrinsic_inner env (bytes ++ suffix)
      = Except.error "Number of bytes differs from reported extrinsic length" := by
  obtain ⟨len, cursor, heq, hlen⟩ := decode_extrinsic_inner_ok_length env bytes ext h
  have hsl : 0 < suffix.length := List.length_pos.mpr hs
  simp only [decode_extrinsic_inner, decodeCompactU64_append heq]
  rw [if_pos (by simp only [List.length_append]; omega)]

theorem stripBytes_append {cursor s hash rest : List Nat} {num : Nat}
    (h : stripBytes cursor num = Except.ok (hash, rest)) :
    stripBytes (cursor ++ s) num = Except.ok (hash, rest ++ s) := by
  obtain ⟨h1, h2, hle, -⟩ := stripBytes_ok h
  subst h1 h2
  unfold stripBytes
  rw [if_pos (show num ≤ (cursor ++ s).length by simp only [List.length_append]; omega)]
  rw [List.take_append_of_le_length hle, List.drop_append_of_le_length hle]

theorem decodeOneKey_append {T V : Type} (env : StorageDecodeEnv T V)
    (hstable : ∀ (id : T) (b : List Nat) (v : V) (r s : List Nat),
      env.decodeAsType id b = Except.ok (v, r) →
      env.decodeAsType id (b ++ s) = Except.ok (v, r ++ s))
    (ki : StorageTypeKey T) (cursor s : List Nat) (k : StorageKey V) (cursor' : List Nat)
    (h : decodeOneKey env ki cursor = Except.ok (k, cursor')) :
    decodeOneKey env ki (cursor ++ s) = Except.ok (k, cursor' ++ s) := by
  obtain ⟨hasher, key_id⟩ := ki
  cases hasher <;> simp only [decodeOneKey] at h ⊢
  case Blake2_128 | Twox128 | Blake2_256 | Twox256 =>
    split at h
    · cases h
    · next hash c heq =>
      injection h with h'
      injection h' with h1 h2
      subst h1 h2
      rw [stripBytes_append heq]
  case Blake2_128Concat | Twox64Concat =>
    split at h
    · cases h
    · next hash c heq =>
      split at h
      · cases h
      · next v c2 heq2 =>
        injection h with h'
        injection h' with h1 h2
        subst h1 h2
        simp only [stripBytes_append heq, hstable key_id c v c2 s heq2]
  case Identity =>
    split at h
    · cases h
    · next v c heq =>
      injection h with h'
      injection h' with h1 h2
      subst h1 h2
      simp only [hstable key_id cursor v c s heq]

theorem decodeKeysList_append {T V : Type} (env : StorageDecodeEnv T V)
    (hstable : ∀ (id : T) (b : List Nat) (v : V) (r s : List Nat),
      env.decodeAsType id b = Except.ok (v, r) →
      env.decodeAsType id (b ++ s) = Except.ok (v, r ++ s)) :
    ∀ (kis : List (StorageTypeKey T)) (cursor s : List Nat) (out : List (StorageKey V))
      (cursor' : List Nat),
      decodeKeysList env kis cursor = Except.ok (out, cursor') →
      decodeKeysList env kis (cursor ++ s) = Except.ok (out, cursor' ++ s) := by
  intro kis
  induction kis with
  | nil =>
    intro cursor s out cursor' h
    simp only [decodeKeysList] at h ⊢
    injection h with h'
    injection h' with h1 h2
    subst h1 h2
    rfl
  | cons ki rest ih =>
    intro cursor s out cursor' h
    simp only [decodeKeysList] at h ⊢
    split at h
    · cases h
    · next k c₁ heq₁ =>
      split at h
      · cases h
      · next ks c₂ heq₂ =>
        injection h with h'
        injection h' with h1 h2
        subst h1 h2
        simp only [decodeOneKey_append env hstable ki cursor s k c₁ heq₁,
          ih c₁ s ks c₂ heq₂]

theorem decode_storage_keys_leftover {T V : Type} (env : StorageDecodeEnv T V)
    (hstable : ∀ (id : T) (b : List Nat) (v : V) (r s : List Nat),
      env.decodeAsType id b = Except.ok (v, r) →
      env.decodeAsType id (b ++ s) = Except.ok (v, r ++ s))
    (pallet_name storage_entry : String) (bytes suffix : List Nat)
    (keys : List (StorageKey V))
    (h : decode_storage_keys_inner env pallet_name storage_entry bytes = Except.ok keys)
    (hs : suffix ≠ []) :
    decode_storage_keys_inner env pallet_name storage_entry (bytes ++ suffix)
      = Except.error "leftover bytes decoding storage keys" := by
  simp only [decode_storage_keys_inner] at h ⊢
  split at h
  · cases h
  · next info hinfo =>
    split at h
    · cases h
    · next lead cursor hstrip =>
      simp only [stripBytes_append hstrip]
      split_ifs at h with hpre
      rw [if_neg hpre]
      split at h
      · cases h
      · next ks c₂ hkeys =>
        split_ifs at h with hleft
        have hc₂ : c₂ = [] := by
          by_contra hc
          exact hleft hc
        subst hc₂
        simp only [decodeKeysList_append env hstable info.keys cursor suffix ks [] hkeys,
          List.nil_append]
        rw [if_pos hs]

theorem decode_storage_value_leftover {T V : Type} (env : StorageDecodeEnv T V)
    (hstable : ∀ (id : T) (b : List Nat) (v : V) (r s : List Nat),
      env.decodeAsType id b = Except.ok (v, r) →
      env.decodeAsType id (b ++ s) = Except.ok (v, r ++ s))
    (pallet_name storage_entry : String) (bytes suffix : List Nat) (value : V)
    (h : decode_storage_value_inner env pallet_name storage_entry bytes = Except.ok value)
    (hs : suffix ≠ []) :
    decode_storage_value_inner env pallet_name storage_entry (bytes ++ suffix)
      = Except.error "leftover bytes decoding storage value" := by
  simp only [decode_storage_value_inner] at h ⊢
  split at h
  · cases h
  · next info hinfo =>
    split at h
    · cases h
    · next v c heq =>
      split_ifs at h with hleft
      have hc : c = [] := by
        by_contra hcc
        exact hleft hcc
      subst hc
      simp only [hstable info.value_id bytes v [] suffix heq, List.nil_append]
      rw [if_pos hs]

/-- C6: for every validly encoded extrinsic and every validly decoded
storage key or storage value, appending any non-empty byte suffix makes
the corresponding decode operation fail — never succeed silently: the
extrinsic decoder fails its strict length check ("Number of bytes
differs from reported extrinsic length", the leftover guard cited by the
spec), and the storage key and value decoders fail their leftover-bytes
checks. The storage parts assume the abstract external value decoder is
prefix-based (appending bytes does not change what it consumes), which
holds for SCALE decoding. -/
theorem C6_leftover_bytes {T V T2 V2 : Type} :
    (∀ (env : DecodeEnv T V) (bytes suffix : List Nat) (ext : Extrinsic V),
      decode_extrinsic_inner env bytes = Except.ok ext → suffix ≠ [] →
      decode_extrinsic_inner env (bytes ++ suffix)
        = Except.error "Number of bytes differs from reported extrinsic length")
    ∧ (∀ (env : StorageDecodeEnv T2 V2),
      (∀ (id : T2) (b : List Nat) (v : V2) (r s : List Nat),
        env.decodeAsType id b = Except.ok (v, r) →
        env.decodeAsType id (b ++ s) = Except.ok (v, r ++ s)) →
      ∀ (pallet_name storage_entry : String) (bytes suffix : List Nat)
        (keys : List (StorageKey V2)),
        decode_storage_keys_inner env pallet_name storage_entry bytes = Except.ok keys →
        suffix ≠ [] →
        decode_storage_keys_inner env pallet_name storage_entry (bytes ++ suffix)
          = Except.error "leftover bytes decoding storage keys")
    ∧ (∀ (env : StorageDecodeEnv T2 V2),
      (∀ (id : T2) (b : List Nat) (v : V2) (r s : List Nat),
        env.decodeAsType id b = Except.ok (v, r) →
        env.decodeAsType id (b ++ s) = Except.ok (v, r ++ s)) →
      ∀ (pallet_name storage_entry : String) (bytes suffix : List Nat) (value : V2),
        decode_storage_value_inner env pallet_name storage_entry bytes = Except.ok value →
        suffix ≠ [] →
        decode_storage_value_inner env pallet_name storage_entry (bytes ++ suffix)
          = Except.error "leftover bytes decoding storage value") := by
  refine ⟨?_, ?_, ?_⟩
  · intro env bytes suffix ext h hs
    exact decode_extrinsic_leftover env bytes suffix ext h hs
  · intro env hstable pallet_name storage_entry bytes suffix keys h hs
    exact decode_storage_keys_leftover env hstable pallet_name storage_entry
      bytes suffix keys h hs
  · intro env hstable pallet_name storage_entry bytes suffix value h hs
    exact decode_storage_value_leftover env hstable pallet_name storage_entry
      bytes suffix value h hs

/-- A concrete storage environment for witnesses: a map entry with one
Blake2_128 key, one Twox64Concat key and one Identity key, a one-byte
value decoder, and an all-zero stand-in for the twox128 hash. -/
def storageEnvW : StorageDecodeEnv Unit Nat where
  getStorageInfo := fun _ _ =>
    Except.ok ⟨[⟨StorageHasher.Blake2_128, ()⟩, ⟨StorageHasher.Twox64Concat, ()⟩,
      ⟨StorageHasher.Identity, ()⟩], ()⟩
  decodeAsType := fun _ c =>
    match c with
    | b :: rest => Except.ok (b, rest)
    | [] => Except.error "not enough bytes"
  twox128 := fun _ => List.replicate 16 0

/-- The one-byte decoder of `storageEnvW` is prefix-based. -/
theorem storageEnvW_stable :
    ∀ (id : Unit) (b : List Nat) (v : Nat) (r s : List Nat),
      storageEnvW.decodeAsType id b = Except.ok (v, r) →
      storageEnvW.decodeAsType id (b ++ s) = Except.ok (v, r ++ s) := by
  intro id b v r s h
  cases b with
  | nil => cases h
  | cons x xs =>
    injection h with h'
    injection h' with h1 h2
    subst h1 h2
    rfl

/-- A storage key byte string valid for `storageEnvW`: a 32-byte
prefix, a 16-byte hash, an 8-byte hash plus one value byte, and one
Identity value byte. -/
def bytesW : List Nat :=
  List.replicate 32 0 ++ List.replicate 16 1 ++ List.replicate 8 2 ++ [7, 9]

/-- The keys `bytesW` decodes to under `storageEnvW`. -/
def keysW : List (StorageKey Nat) :=
  [⟨List.replicate 16 1, none, StorageHasher.Blake2_128⟩,
   ⟨List.replicate 8 2, some 7, StorageHasher.Twox64Concat⟩,
   ⟨[], some 9, StorageHasher.Identity⟩]

/-- Witness for C8: the concrete key bytes decode, and
`C8_hasher_value_shapes` applied to that decode yields the shape facts
for each component: the Blake2_128 component carries 16 hash bytes and
no value, the Twox64Concat component 8 hash bytes and a value, the
Identity component no hash bytes and a value. -/
theorem C8_hasher_value_shapes_witness :
    decode_storage_keys_inner storageEnvW "Pallet" "Entry" bytesW = Except.ok keysW
    ∧ ∀ k ∈ keysW,
      ((k.hasher = StorageHasher.Blake2_128 ∨ k.hasher = StorageHasher.Twox128) →
          k.value = none ∧ k.hash.length = 16)
      ∧ ((k.hasher = StorageHasher.Blake2_256 ∨ k.hasher = StorageHasher.Twox256) →
          k.value = none ∧ k.hash.length = 32)
      ∧ (k.hasher = StorageHasher.Blake2_128Concat →
          k.hash.length = 16 ∧ ∃ v, k.value = some v)
      ∧ (k.hasher = StorageHasher.Twox64Concat →
          k.hash.length = 8 ∧ ∃ v, k.value = some v)
      ∧ (k.hasher = StorageHasher.Identity →
          k.hash = [] ∧ ∃ v, k.value = some v) := by
  have hdec : decode_storage_keys_inner storageEnvW "Pallet" "Entry" bytesW
      = Except.ok keysW := by rfl
  exact ⟨hdec, C8_hasher_value_shapes storageEnvW "Pallet" "Entry" bytesW keysW hdec⟩

/-- Witness for C6: appending the byte 0xAA to a validly decoding
extrinsic, storage key and storage value makes each decode fail with
the corresponding error. -/
theorem C6_leftover_bytes_witness :
    decode_extrinsic_inner envC3 ([12, 4, 0, 0] ++ [170])
      = Except.error "Number of bytes differs from reported extrinsic length"
    ∧ decode_storage_keys_inner storageEnvW "Pallet" "Entry" (bytesW ++ [170])
      = Except.error "leftover bytes decoding storage keys"
    ∧ decode_storage_value_inner storageEnvW "Pallet" "Entry" ([5] ++ [170])
      = Except.error "leftover bytes decoding storage value" := by
  refine ⟨?_, ?_, ?_⟩
  · exact (@C6_leftover_bytes Unit Unit Unit Nat).1 envC3 [12, 4, 0, 0] [170]
      (Extrinsic.V4Unsigned ⟨"p", "c", []⟩) (by rfl) (by decide)
  · exact (@C6_leftover_bytes Unit Unit Unit Nat).2.1 storageEnvW storageEnvW_stable
      "Pallet" "Entry" bytesW [170] keysW (by rfl) (by decide)
  · exact (@C6_leftover_bytes Unit Unit Unit Nat).2.2 storageEnvW storageEnvW_stable
      "Pallet" "Entry" [5] [170] 5 (by rfl) (by decide)

/-! ## Extrinsic type info pallet selection
(src/decoding/extrinsic_type_info.rs) -/

/-- Declared call argument metadata (the `arguments` entries of a call
in v8-v13 module metadata). -/
structure CallArgMeta where
  name : String
  ty : String

/-- Declared call metadata. -/
structure CallMeta where
  name : String
  arguments : List CallArgMeta

/-- v8-v11 module metadata: no explicit index field; `calls` is `None`
for a pallet that declares no calls. -/
structure ModuleV8 where
  name : String
  calls : Option (List CallMeta)

/-- v12-v13 module metadata: carries an explicit `index` field. -/
structure ModuleV12 where
  name : String
  index : Nat
  calls : Option (List CallMeta)

/-- The argument-mapping loop shared by the v8-v11 and v12-v13 bodies
(src/decoding/extrinsic_type_info.rs lines 61-65 and 155-159): parse
each declared argument type in the pallet's scope. `parse ty pallet`
abstracts `LookupName::parse(ty)?.in_pallet(pallet)`. -/
def argsOf {T : Type} (parse : String → String → Except String T) (pallet : String) :
    List CallArgMeta → Except String (List (Arg T))
  | [] => Except.ok []
  | a :: rest =>
    match parse a.ty pallet with
    | Except.error e => Except.error e
    | Except.ok id =>
      match argsOf parse pallet rest with
      | Except.error e => Except.error e
      | Except.ok args => Except.ok (⟨a.name, id⟩ :: args)

/-- Embedding of `impl_extrinsic_info_body_for_v8_to_v11`
(src/decoding/extrinsic_type_info.rs lines 35-73): the pallet is the
`pallet_index`-th among the modules that declare calls
(`filter(|m| m.calls.is_some()).nth(pallet_index)`), not among all
modules. -/
def get_extrinsic_info_v8_to_v11 {T : Type} (parse : String → String → Except String T)
    (modules : List ModuleV8) (pallet_index call_index : Nat) :
    Except String (ExtrinsicInfo T) :=
  match (modules.filter (fun m => m.calls.isSome)).get? pallet_index with
  | none => Except.error "Couldn't find pallet with index"
  | some m =>
    match m.calls with
    | none => Except.error "No calls in pallet"
    | some calls =>
      match calls.get? call_index with
      | none => Except.error "Could not find call with index in pallet"
      | some call =>
        match argsOf parse m.name call.arguments with
        | Except.error e => Except.error e
        | Except.ok args => Except.ok ⟨m.name, call.name, args⟩

/-- Embedding of the v12-v13 `get_extrinsic_info` body
(src/decoding/extrinsic_type_info.rs lines 131-166): the pallet is the
one whose explicit `index` field equals `pallet_index`
(`find(|m| m.index == pallet_index)`), regardless of declaration
order. -/
def get_extrinsic_info_v12_to_v13 {T : Type} (parse : String → String → Except String T)
    (modules : List ModuleV12) (pallet_index call_index : Nat) :
    Except String (ExtrinsicInfo T) :=
  match modules.find? (fun m => m.index == pallet_index) with
  | none => Except.error "Couldn't find pallet with index"
  | some m =>
    match m.calls with
    | none => Except.error "No calls in pallet"
    | some calls =>
      match calls.get? call_index with
      | none => Except.error "Could not find call with index in pallet"
      | some call =>
        match argsOf parse m.name call.arguments with
        | Except.error e => Except.error e
        | Except.ok args => Except.ok ⟨m.name, call.name, args⟩

/-- C4: for metadata versions with no explicit pallet index field
(V8-V11), get_extrinsic_info selects the pallet at position pallet_index
among only those pallets that declare calls, and fails if no such pallet
exists; for versions with an explicit index field (V12 onward) it
selects the pallet whose declared index field equals pallet_index,
ignoring declaration order. -/
theorem C4_pallet_selection {T : Type} (parse : String → String → Except String T) :
    (∀ (modules : List ModuleV8) (pi ci : Nat),
      (modules.filter (fun m => m.calls.isSome)).get? pi = none →
      ∃ e, get_extrinsic_info_v8_to_v11 parse modules pi ci = Except.error e)
    ∧ (∀ (modules : List ModuleV8) (pi ci : Nat) (m : ModuleV8),
      (modules.filter (fun m => m.calls.isSome)).get? pi = some m →
      ∀ info, get_extrinsic_info_v8_to_v11 parse modules pi ci = Except.ok info →
        info.pallet_name = m.name)
    ∧ (∀ (modules : List ModuleV12) (pi ci : Nat) (info : ExtrinsicInfo T),
      get_extrinsic_info_v12_to_v13 parse modules pi ci = Except.ok info →
      ∃ m ∈ modules, m.index = pi ∧ info.pallet_name = m.name) := by
  refine ⟨?_, ?_, ?_⟩
  · intro modules pi ci h
    simp only [get_extrinsic_info_v8_to_v11, h]
    exact ⟨_, rfl⟩
  · intro modules pi ci m h info hok
    simp only [get_extrinsic_info_v8_to_v11, h] at hok
    split at hok
    · cases hok
    · split at hok
      · cases hok
      · split at hok
        · cases hok
        · injection hok with h'
          subst h'
          rfl
  · intro modules pi ci info hok
    simp only [get_extrinsic_info_v12_to_v13] at hok
    split at hok
    · cases hok
    · next m hfind =>
      refine ⟨m, List.mem_of_find?_eq_some hfind, ?_, ?_⟩
      · have := List.find?_some hfind
        simpa using this
      · split at hok
        · cases hok
        · split at hok
          · cases hok
          · split at hok
            · cases hok
            · injection hok with h'
              subst h'
              rfl

/-- A trivial type-name parser for witnesses: the type id is the type
name itself. -/
def parseW : String → String → Except String String :=
  fun ty _ => Except.ok ty

/-- Witness for C4: with pallet "A" declaring no calls and pallet "B"
declaring one, pallet_index 0 selects "B" (the 0th call-declaring
pallet, not the 0th overall) and index 5 finds nothing; with v12
metadata listing index-5 pallet "X" before index-0 pallet "Y",
pallet_index 0 selects "Y" by its index field despite the order. -/
theorem C4_pallet_selection_witness :
    (∃ e, get_extrinsic_info_v8_to_v11 parseW
      [⟨"A", none⟩, ⟨"B", some [⟨"c0", []⟩]⟩] 5 0 = Except.error e)
    ∧ (ExtrinsicInfo.mk "B" "c0" ([] : List (Arg String))).pallet_name = "B"
    ∧ ∃ m ∈ [ModuleV12.mk "X" 5 (some [⟨"c0", []⟩]), ModuleV12.mk "Y" 0 (some [⟨"c0", []⟩])],
        m.index = 0 ∧ (ExtrinsicInfo.mk "Y" "c0" ([] : List (Arg String))).pallet_name = m.name := by
  refine ⟨?_, ?_, ?_⟩
  · exact (C4_pallet_selection parseW).1 [⟨"A", none⟩, ⟨"B", some [⟨"c0", []⟩]⟩] 5 0 (by rfl)
  · exact (C4_pallet_selection parseW).2.1 [⟨"A", none⟩, ⟨"B", some [⟨"c0", []⟩]⟩] 0 0
      ⟨"B", some [⟨"c0", []⟩]⟩ (by rfl) (ExtrinsicInfo.mk "B" "c0" []) (by rfl)
  · exact (C4_pallet_selection parseW).2.2
      [ModuleV12.mk "X" 5 (some [⟨"c0", []⟩]), ModuleV12.mk "Y" 0 (some [⟨"c0", []⟩])] 0 0
      (ExtrinsicInfo.mk "Y" "c0" []) (by rfl)

/-! ## Storage type info hasher pairing
(src/decoding/storage_type_info.rs) -/

/-- Embedding of `to_storage_hasher_v13` (the `to_latest_storage_hasher`
macro instance, src/decoding/storage_type_info.rs lines 341-359): the
v13 metadata hasher has the same seven variants; the conversion matches
each onto the shared `StorageHasher`. -/
def to_storage_hasher_v13 : StorageHasher → StorageHasher
  | StorageHasher.Blake2_128 => StorageHasher.Blake2_128
  | StorageHasher.Blake2_128Concat => StorageHasher.Blake2_128Concat
  | StorageHasher.Blake2_256 => StorageHasher.Blake2_256
  | StorageHasher.Twox128 => StorageHasher.Twox128
  | StorageHasher.Twox256 => StorageHasher.Twox256
  | StorageHasher.Twox64Concat => StorageHasher.Twox64Concat
  | StorageHasher.Identity => StorageHasher.Identity

/-- Embedding of `to_storage_hasher_v14` (same macro,
src/decoding/storage_type_info.rs line 360). -/
def to_storage_hasher_v14 : StorageHasher → StorageHasher
  | StorageHasher.Blake2_128 => StorageHasher.Blake2_128
  | StorageHasher.Blake2_128Concat => StorageHasher.Blake2_128Concat
  | StorageHasher.Blake2_256 => StorageHasher.Blake2_256
  | StorageHasher.Twox128 => StorageHasher.Twox128
  | StorageHasher.Twox256 => StorageHasher.Twox256
  | StorageHasher.Twox64Concat => StorageHasher.Twox64Concat
  | StorageHasher.Identity => StorageHasher.Identity

/-- Embedding of `frame_metadata::v13::StorageEntryType` as used by
`get_storage_info` (src/decoding/storage_type_info.rs lines 160-225):
type names are strings (`DecodeDifferent` already decoded). -/
inductive StorageEntryTypeV13 where
  | Plain (ty : String)
  | Map (hasher : StorageHasher) (key : String) (value : String)
  | DoubleMap (hasher : StorageHasher) (key1 : String) (key2 : String)
      (value : String) (key2_hasher : StorageHasher)
  | NMap (keys : List String) (hashers : List StorageHasher) (value : String)

/-- A v13 storage entry. -/
structure StorageEntryV13 where
  name : String
  ty : StorageEntryTypeV13

/-- A v13 module with its storage entries (the `storage` field's
`entries`, flattened). -/
structure ModuleStorageV13 where
  name : String
  storage : Option (List StorageEntryV13)

/-- The uniform-hasher NMap key mapping (src/decoding/storage_type_info.rs
lines 199-206): every key gets the single declared hasher. -/
def buildKeysUniform {T : Type} (parse : String → String → Except String T)
    (pallet : String) (hasher : StorageHasher) :
    List String → Except String (List (StorageTypeKey T))
  | [] => Except.ok []
  | k :: rest =>
    match parse k pallet with
    | Except.error e => Except.error e
    | Except.ok id =>
      match buildKeysUniform parse pallet hasher rest with
      | Except.error e => Except.error e
      | Except.ok ks => Except.ok (⟨hasher, id⟩ :: ks)

/-- The positional NMap key mapping (src/decoding/storage_type_info.rs
lines 207-215): each key is paired with the hasher at its position. -/
def buildKeysZip {T : Type} (parse : String → String → Except String T)
    (pallet : String) :
    List (String × StorageHasher) → Except String (List (StorageTypeKey T))
  | [] => Except.ok []
  | (k, h) :: rest =>
    match parse k pallet with
    | Except.error e => Except.error e
    | Except.ok id =>
      match buildKeysZip parse pallet rest with
      | Except.error e => Except.error e
      | Except.ok ks => Except.ok (⟨to_storage_hasher_v13 h, id⟩ :: ks)

/-- Embedding of `StorageTypeInfo for RuntimeMetadataV13::get_storage_info`
(src/decoding/storage_type_info.rs lines 139-227). `parse ty pallet`
abstracts `LookupName::parse(..)?.in_pallet(..)` (with the newline
sanitizing of `decode_lookup_name_or_err`). -/
def get_storage_info_v13 {T : Type} (parse : String → String → Except String T)
    (modules : List ModuleStorageV13) (pallet_name storage_entry : String) :
    Except String (StorageInfo T) :=
  match modules.find? (fun m => m.name == pallet_name) with
  | none => Except.error "Couldn't find pallet with name"
  | some m =>
    match m.storage with
    | none => Except.error "Pallet has no storage entries"
    | some entries =>
      match entries.find? (fun s => s.name == storage_entry) with
      | none => Except.error "Pallet has no storage entry called that"
      | some storage =>
        match storage.ty with
        | StorageEntryTypeV13.Plain ty =>
          match parse ty pallet_name with
          | Except.error e => Except.error e
          | Except.ok value_id => Except.ok ⟨[], value_id⟩
        | StorageEntryTypeV13.Map hasher key value =>
          match parse key pallet_name with
          | Except.error e => Except.error e
          | Except.ok key_id =>
            match parse value pallet_name with
            | Except.error e => Except.error e
            | Except.ok value_id =>
              Except.ok ⟨[⟨to_storage_hasher_v13 hasher, key_id⟩], value_id⟩
        | StorageEntryTypeV13.DoubleMap hasher key1 key2 value key2_hasher =>
          match parse key1 pallet_name with
          | Except.error e => Except.error e
          | Except.ok key1_id =>
            match parse key2 pallet_name with
            | Except.error e => Except.error e
            | Except.ok key2_id =>
              match parse value pallet_name with
              | Except.error e => Except.error e
              | Except.ok value_id =>
                Except.ok ⟨[⟨to_storage_hasher_v13 hasher, key1_id⟩,
                  ⟨to_storage_hasher_v13 key2_hasher, key2_id⟩], value_id⟩
        | StorageEntryTypeV13.NMap keys hashers value =>
          match parse value pallet_name with
          | Except.error e => Except.error e
          | Except.ok value_id =>
            if hashers.length = 1 then
              match buildKeysUniform parse pallet_name
                  (to_storage_hasher_v13 (hashers.headD StorageHasher.Identity)) keys with
              | Except.error e => Except.error e
              | Except.ok ks => Except.ok ⟨ks, value_id⟩
            else if hashers.length = keys.length then
              match buildKeysZip parse pallet_name (keys.zip hashers) with
              | Except.error e => Except.error e
              | Except.ok ks => Except.ok ⟨ks, value_id⟩
            else
              Except.error "Hashers and key count should match"

/-- Embedding of `frame_metadata::v14::StorageEntryType`: type ids are
indices into the metadata's type table. -/
inductive StorageEntryTypeV14 where
  | Plain (value : Nat)
  | Map (hashers : List StorageHasher) (key : Nat) (value : Nat)

/-- A v14 storage entry. -/
structure StorageEntryV14 where
  name : String
  ty : StorageEntryTypeV14

/-- A v14 pallet with its storage entries. -/
structure PalletV14 where
  name : String
  storage : Option (List StorageEntryV14)

/-- Embedding of `impl_storage_type_info_for_v14_to_v15`
(src/decoding/storage_type_info.rs lines 229-306). `resolveTuple id`
abstracts `self.types.resolve(id)` combined with the
`TypeDef::Tuple` test: `none` when the type is not in the table,
`some (some fields)` when it resolves to a tuple of the given field
ids, `some none` when it resolves to a non-tuple type. -/
def get_storage_info_v14 (resolveTuple : Nat → Option (Option (List Nat)))
    (pallets : List PalletV14) (pallet_name storage_entry : String) :
    Except String (StorageInfo Nat) :=
  match pallets.find? (fun p => p.name == pallet_name) with
  | none => Except.error "Couldn't find pallet with name"
  | some pallet =>
    match pallet.storage with
    | none => Except.error "Pallet has no storage entries"
    | some entries =>
      match entries.find? (fun e => e.name == storage_entry) with
      | none => Except.error "Pallet has no storage entry called that"
      | some storage =>
        match storage.ty with
        | StorageEntryTypeV14.Plain value => Except.ok ⟨[], value⟩
        | StorageEntryTypeV14.Map hashers key value =>
          match resolveTuple key with
          | none => Except.error "Cannot find type of storage entry"
          | some (some fields) =>
            if hashers.length = 1 then
              Except.ok ⟨fields.map (fun f =>
                ⟨to_storage_hasher_v14 (hashers.headD StorageHasher.Identity), f⟩), value⟩
            else if hashers.length = fields.length then
              Except.ok ⟨(fields.zip hashers).map (fun fh =>
                ⟨to_storage_hasher_v14 fh.2, fh.1⟩), value⟩
            else
              Except.error "Hasher and key mismatch in storage entry"
          | some none =>
            if hashers.length = 1 then
              Except.ok ⟨[⟨to_storage_hasher_v14 (hashers.headD StorageHasher.Identity), key⟩],
                value⟩
            else
              Except.error "Hasher and key mismatch in storage entry"

theorem buildKeysUniform_hashers {T : Type} (parse : String → String → Except String T)
    (pallet : String) (hasher : StorageHasher) :
    ∀ (keys : List String) (ks : List (StorageTypeKey T)),
      buildKeysUniform parse pallet hasher keys = Except.ok ks →
      ks.map (fun k => k.hasher) = keys.map (fun _ => hasher) := by
  intro keys
  induction keys with
  | nil =>
    intro ks h
    injection h with h'
    subst h'
    rfl
  | cons k rest ih =>
    intro ks h
    simp only [buildKeysUniform] at h
    split at h
    · cases h
    · split at h
      · cases h
      · next ks' heq =>
        injection h with h'
        subst h'
        simp only [List.map_cons, ih ks' heq]

theorem buildKeysZip_hashers {T : Type} (parse : String → String → Except String T)
    (pallet : String) :
    ∀ (pairs : List (String × StorageHasher)) (ks : List (StorageTypeKey T)),
      buildKeysZip parse pallet pairs = Except.ok ks →
      ks.map (fun k => k.hasher) = pairs.map (fun p => to_storage_hasher_v13 p.2) := by
  intro pairs
  induction pairs with
  | nil =>
    intro ks h
    injection h with h'
    subst h'
    rfl
  | cons p rest ih =>
    intro ks h
    obtain ⟨k, hshr⟩ := p
    simp only [buildKeysZip] at h
    split at h
    · cases h
    · split at h
      · cases h
      · next ks' heq =>
        injection h with h'
        subst h'
        simp only [List.map_cons, ih ks' heq]

/-- C5: for a multi-key (N-ary) storage map entry, get_storage_info
pairs hashers with keys as follows — exactly one declared hasher for N
keys applies that hasher uniformly to every key; a hasher count equal to
the key count pairs hashers with keys positionally; any other
combination is a SchemaError. Stated for the V13 NMap entry and for the
V14/V15 tuple-keyed Map entry. -/
theorem C5_nmap_hasher_pairing {T : Type} (parse : String → String → Except String T) :
    (∀ (pname ename : String) (keys : List String) (hashers : List StorageHasher)
      (value : String) (info : StorageInfo T),
      get_storage_info_v13 parse
        [⟨pname, some [⟨ename, StorageEntryTypeV13.NMap keys hashers value⟩]⟩]
        pname ename = Except.ok info →
      hashers.length = 1 →
      info.keys.map (fun k => k.hasher)
        = keys.map (fun _ => to_storage_hasher_v13 (hashers.headD StorageHasher.Identity)))
    ∧ (∀ (pname ename : String) (keys : List String) (hashers : List StorageHasher)
      (value : String) (info : StorageInfo T),
      get_storage_info_v13 parse
        [⟨pname, some [⟨ename, StorageEntryTypeV13.NMap keys hashers value⟩]⟩]
        pname ename = Except.ok info →
      hashers.length ≠ 1 → hashers.length = keys.length →
      info.keys.map (fun k => k.hasher) = hashers.map to_storage_hasher_v13)
    ∧ (∀ (pname ename : String) (keys : List String) (hashers : List StorageHasher)
      (value : String),
      hashers.length ≠ 1 → hashers.length ≠ keys.length →
      ∃ e, get_storage_info_v13 parse
        [⟨pname, some [⟨ename, StorageEntryTypeV13.NMap keys hashers value⟩]⟩]
        pname ename = Except.error e)
    ∧ (∀ (resolveTuple : Nat → Option (Option (List Nat))) (pname ename : String)
      (hashers : List StorageHasher) (key value : Nat) (fields : List Nat)
      (info : StorageInfo Nat),
      resolveTuple key = some (some fields) →
      get_storage_info_v14 resolveTuple
        [⟨pname, some [⟨ename, StorageEntryTypeV14.Map hashers key value⟩]⟩]
        pname ename = Except.ok info →
      hashers.length = 1 →
      info.keys.map (fun k => k.hasher)
        = fields.map (fun _ => to_storage_hasher_v14 (hashers.headD StorageHasher.Identity)))
    ∧ (∀ (resolveTuple : Nat → Option (Option (List Nat))) (pname ename : String)
      (hashers : List StorageHasher) (key value : Nat) (fields : List Nat)
      (info : StorageInfo Nat),
      resolveTuple key = some (some fields) →
      get_storage_info_v14 resolveTuple
        [⟨pname, some [⟨ename, StorageEntryTypeV14.Map hashers key value⟩]⟩]
        pname ename = Except.ok info →
      hashers.length ≠ 1 → hashers.length = fields.length →
      info.keys.map (fun k => k.hasher) = hashers.map to_storage_hasher_v14)
    ∧ (∀ (resolveTuple : Nat → Option (Option (List Nat))) (pname ename : String)
      (hashers : List StorageHasher) (key value : Nat) (fields : List Nat),
      resolveTuple key = some (some fields) →
      hashers.length ≠ 1 → hashers.length ≠ fields.length →
      ∃ e, get_storage_info_v14 resolveTuple
        [⟨pname, some [⟨ename, StorageEntryTypeV14.Map hashers key value⟩]⟩]
        pname ename = Except.error e) := by
  refine ⟨?_, ?_, ?_, ?_, ?_, ?_⟩
  · intro pname ename keys hashers value info h h1
    simp only [get_storage_info_v13, List.find?, beq_self_eq_true] at h
    split at h
    · cases h
    · next value_id hval =>
      rw [if_pos h1] at h
      split at h
      · cases h
      · next ks heq =>
        injection h with h'
        subst h'
        exact buildKeysUniform_hashers parse pname _ keys ks heq
  · intro pname ename keys hashers value info h h1 h2
    simp only [get_storage_info_v13, List.find?, beq_self_eq_true] at h
    split at h
    · cases h
    · next value_id hval =>
      rw [if_neg h1, if_pos h2] at h
      split at h
      · cases h
      · next ks heq =>
        injection h with h'
        subst h'
        rw [buildKeysZip_hashers parse pname (keys.zip hashers) ks heq]
        rw [show (fun p : String × StorageHasher => to_storage_hasher_v13 p.2)
          = (to_storage_hasher_v13 ∘ Prod.snd) from rfl]
        rw [← List.map_map, List.map_snd_zip keys hashers (by omega)]
  · intro pname ename keys hashers value h1 h2
    simp only [get_storage_info_v13, List.find?, beq_self_eq_true]
    split
    · exact ⟨_, rfl⟩
    · rw [if_neg h1, if_neg h2]
      exact ⟨_, rfl⟩
  · intro resolveTuple pname ename hashers key value fields info hres h h1
    simp only [get_storage_info_v14, List.find?, beq_self_eq_true, hres] at h
    rw [if_pos h1] at h
    injection h with h'
    subst h'
    simp only [List.map_map]
    rw [show ((fun k : StorageTypeKey Nat => k.hasher)
        ∘ fun f : Nat => (⟨to_storage_hasher_v14 (hashers.headD StorageHasher.Identity), f⟩
          : StorageTypeKey Nat))
      = (fun _ : Nat => to_storage_hasher_v14 (hashers.headD StorageHasher.Identity)) from rfl]
  · intro resolveTuple pname ename hashers key value fields info hres h h1 h2
    simp only [get_storage_info_v14, List.find?, beq_self_eq_true, hres] at h
    rw [if_neg h1, if_pos h2] at h
    injection h with h'
    subst h'
    simp only [List.map_map]
    rw [show ((fun k : StorageTypeKey Nat => k.hasher)
        ∘ fun fh : Nat × StorageHasher => (⟨to_storage_hasher_v14 fh.2, fh.1⟩ : StorageTypeKey Nat))
      = (to_storage_hasher_v14 ∘ Prod.snd) from rfl]
    rw [← List.map_map, List.map_snd_zip fields hashers (by omega)]
  · intro resolveTuple pname ename hashers key value fields hres h1 h2
    simp only [get_storage_info_v14, List.find?, beq_self_eq_true, hres]
    rw [if_neg h1, if_neg h2]
    exact ⟨_, rfl⟩

/-- The tuple resolver for the C5 witness: every type id resolves to a
three-field tuple. -/
def resolveTupleW : Nat → Option (Option (List Nat)) :=
  fun _ => some (some [10, 11, 12])

/-- Witness for C5: 1 hasher / 3 keys gives all three keys that hasher;
3 hashers / 3 keys pairs positionally; 2 hashers / 3 keys is an error —
for the V13 NMap entry and the V14 tuple-keyed Map entry alike. -/
theorem C5_nmap_hasher_pairing_witness :
    ((StorageInfo.mk [⟨StorageHasher.Blake2_128, "k1"⟩, ⟨StorageHasher.Blake2_128, "k2"⟩,
        ⟨StorageHasher.Blake2_128, "k3"⟩] "v").keys.map (fun k => k.hasher)
      = [StorageHasher.Blake2_128, StorageHasher.Blake2_128, StorageHasher.Blake2_128])
    ∧ ((StorageInfo.mk [⟨StorageHasher.Blake2_128, "k1"⟩, ⟨StorageHasher.Twox64Concat, "k2"⟩,
        ⟨StorageHasher.Identity, "k3"⟩] "v").keys.map (fun k => k.hasher)
      = [StorageHasher.Blake2_128, StorageHasher.Twox64Concat, StorageHasher.Identity])
    ∧ (∃ e, get_storage_info_v13 parseW
        [⟨"P", some [⟨"E", StorageEntryTypeV13.NMap ["k1", "k2", "k3"]
          [StorageHasher.Blake2_128, StorageHasher.Twox64Concat] "v"⟩]⟩]
        "P" "E" = Except.error e)
    ∧ ((StorageInfo.mk [⟨StorageHasher.Blake2_128, 10⟩, ⟨StorageHasher.Blake2_128, 11⟩,
        ⟨StorageHasher.Blake2_128, 12⟩] 99).keys.map (fun k => k.hasher)
      = [StorageHasher.Blake2_128, StorageHasher.Blake2_128, StorageHasher.Blake2_128])
    ∧ ((StorageInfo.mk [⟨StorageHasher.Blake2_128, 10⟩, ⟨StorageHasher.Twox64Concat, 11⟩,
        ⟨StorageHasher.Identity, 12⟩] 99).keys.map (fun k => k.hasher)
      = [StorageHasher.Blake2_128, StorageHasher.Twox64Concat, StorageHasher.Identity])
    ∧ (∃ e, get_storage_info_v14 resolveTupleW
        [⟨"P", some [⟨"E", StorageEntryTypeV14.Map
          [StorageHasher.Blake2_128, StorageHasher.Twox64Concat] 7 99⟩]⟩]
        "P" "E" = Except.error e) := by
  refine ⟨?_, ?_, ?_, ?_, ?_, ?_⟩
  · exact (C5_nmap_hasher_pairing parseW).1 "P" "E" ["k1", "k2", "k3"]
      [StorageHasher.Blake2_128] "v" _ (by rfl) (by decide)
  · exact (C5_nmap_hasher_pairing parseW).2.1 "P" "E" ["k1", "k2", "k3"]
      [StorageHasher.Blake2_128, StorageHasher.Twox64Concat, StorageHasher.Identity] "v" _
      (by rfl) (by decide) (by decide)
  · exact (C5_nmap_hasher_pairing parseW).2.2.1 "P" "E" ["k1", "k2", "k3"]
      [StorageHasher.Blake2_128, StorageHasher.Twox64Concat] "v" (by decide) (by decide)
  · exact (C5_nmap_hasher_pairing parseW).2.2.2.1 resolveTupleW "P" "E"
      [StorageHasher.Blake2_128] 7 99 [10, 11, 12] _ (by rfl) (by rfl) (by decide)
  · exact (C5_nmap_hasher_pairing parseW).2.2.2.2.1 resolveTupleW "P" "E"
      [StorageHasher.Blake2_128, StorageHasher.Twox64Concat, StorageHasher.Identity] 7 99
      [10, 11, 12] _ (by rfl) (by rfl) (by decide) (by decide)
  · exact (C5_nmap_hasher_pairing parseW).2.2.2.2.2 resolveTupleW "P" "E"
      [StorageHasher.Blake2_128, StorageHasher.Twox64Concat] 7 99 [10, 11, 12]
      (by rfl) (by decide) (by decide)

/-! ## HistoricTypeRegistry priority (spec sections 3 and 4.2) -/

/-- Modelled from the spec: the HistoricTypeRegistry (`TypeRegistrySet`)
implementation lives in the external scale-info-legacy crate and is not
among this repository's sources; src/decoding/mod.rs lines 128-130 and
src/commands/decode_storage_items.rs lines 213-216 only call its
`prepend`. spec.md section 3 describes the registry as an "ordered list
of named-type dictionaries, most-specific/most-recent first; lookup
returns the first dictionary containing the name". A dictionary is an
association list from type names to shapes; this is its lookup. -/
def dictLookup {S : Type} (name : String) : List (String × S) → Option S
  | [] => none
  | (n, shape) :: rest => if n = name then some shape else dictLookup name rest

/-- Modelled from the spec (section 3): registry lookup scans the
dictionaries in priority order and returns the first dictionary's entry
for the name. -/
def registryResolve {S : Type} (name : String) : List (List (String × S)) → Option S
  | [] => none
  | d :: rest =>
    match dictLookup name d with
    | some shape => some shape
    | none => registryResolve name rest

/-- Modelled from the spec (section 4.2): "`prepend(additional_dictionary)`:
inserts a dictionary at highest priority". -/
def registryPrepend {S : Type} (d : List (String × S))
    (sets : List (List (String × S))) : List (List (String × S)) :=
  d :: sets

/-- C7 (spec-modelled): after `prepend d` — as used to inject the
metadata-derived builtin call/event enum types — every type name defined
in `d` resolves to `d`'s definition during lookup, even when the same
name is also present in other dictionaries of the set; and in general a
name present in multiple dictionaries always resolves to the
highest-priority (earliest) definition. -/
theorem C7_prepend_priority {S : Type} :
    (∀ (sets : List (List (String × S))) (d : List (String × S)) (name : String) (shape : S),
      dictLookup name d = some shape →
      registryResolve name (registryPrepend d sets) = some shape)
    ∧ (∀ (pre : List (List (String × S))) (d : List (String × S))
        (post : List (List (String × S))) (name : String) (shape : S),
      (∀ d' ∈ pre, dictLookup name d' = none) →
      dictLookup name d = some shape →
      registryResolve name (pre ++ d :: post) = some shape) := by
  constructor
  · intro sets d name shape h
    simp only [registryPrepend, registryResolve, h]
  · intro pre
    induction pre with
    | nil =>
      intro d post name shape _ h
      simp only [List.nil_append, registryResolve, h]
    | cons d₀ rest ih =>
      intro d post name shape hnone h
      have h₀ : dictLookup name d₀ = none := hnone d₀ (List.mem_cons_self _ _)
      simp only [List.cons_append, registryResolve, h₀]
      exact ih d post name shape (fun d' hd' => hnone d' (List.mem_cons_of_mem _ hd')) h

/-- Witness for C7: the name "builtin::Call" is defined both in the
prepended metadata-derived dictionary (as shape 7) and in two
lower-priority hand-authored dictionaries (as shapes 1 and 0); lookup
after prepend returns the prepended definition, and a first-match scan
past a dictionary not defining the name also lands on the
highest-priority definition. -/
theorem C7_prepend_priority_witness :
    registryResolve "builtin::Call"
      (registryPrepend [("builtin::Call", 7)]
        [[("builtin::Call", 1), ("builtin::Event", 2)], [("builtin::Call", 0)]])
      = some 7
    ∧ registryResolve "builtin::Call"
        ([[("builtin::Event", 2)]] ++ [("builtin::Call", 7)] ::
          [[("builtin::Call", 1)], [("builtin::Call", 0)]])
      = some 7 := by
  constructor
  · exact (@C7_prepend_priority Nat).1
      [[("builtin::Call", 1), ("builtin::Event", 2)], [("builtin::Call", 0)]]
      [("builtin::Call", 7)] "builtin::Call" 7 (by decide)
  · exact (@C7_prepend_priority Nat).2 [[("builtin::Event", 2)]] [("builtin::Call", 7)]
      [[("builtin::Call", 1)], [("builtin::Call", 0)]] "builtin::Call" 7
      (by intro d' hd'; simp at hd'; subst hd'; decide) (by decide)
